import Mathlib

/-!
# Verification of the phone-account ledger (落秋学习通余额处理.py)

Shallow embedding of the account ledger and authentication engine.

Modelling conventions, fixed for the whole development:

* Monetary amounts (`balance`, `registration_bonus`, recharge/deduct
  amounts) are `ℚ`.  The Python source stores them as `float`; the
  embedding idealises the arithmetic as exact rationals.
* Instants are `ℤ` (seconds).  `datetime.now()` becomes an explicit
  `now : ℤ` parameter; a validity of `d` days is `d * 86400` seconds,
  and `timedelta.days` is floor division by `86400` (Python floors
  toward minus infinity, hence `Int.fdiv`).
* SHA-256 is an uninterpreted parameter `hashFn : String → String`;
  the code only ever compares digests for equality.
* The interactive prompt loops consume explicit lists of already-read
  inputs.  The sentinel `'0'` ("返回上一步") is the dedicated `back`
  constructor; `float(...)` / `int(...)` parse failures are the
  `notNum` constructors.  An exhausted input list — a point where the
  real program would block waiting for the operator — is reported as a
  distinguished `noInput` result.
* `save_data` (file write plus backup rotation) is a boolean oracle
  `saveOk`; operations record whether a save was attempted.
* The regex class `\d` is modelled exactly: the full table of Unicode
  decimal-digit (Nd) codepoint ranges that CPython's `re` matches
  (`ndRanges`/`pyDigit`).  The `str.isdigit()` checks (4-digit PIN and
  4-digit tail), by contrast, are modelled as ASCII `Char.isDigit`;
  Python's `isdigit` accepts further Unicode digit characters, and the
  claims use those checks only on ASCII inputs.
* Two aspects of Python `float` that the plain `ℚ` idealisation hides
  are modelled separately where a claim is sensitive to them: the
  `nan` value accepted by `float(...)`, whose comparisons are all
  false (`PyFloat` and the guard functions over it), and binary64
  rounding of arithmetic (`roundDouble`, `fl_add`, `fl_sub` and the
  `*_fl` mutation steps).
-/

/-- The codepoint ranges of the Unicode decimal digits (category Nd):
exactly the characters CPython's `re` matches for `\d` on `str`
(generated from Python 3.11's `re` module). -/
def ndRanges : List (ℕ × ℕ) :=
  [(48, 57), (1632, 1641), (1776, 1785), (1984, 1993), (2406, 2415),
   (2534, 2543), (2662, 2671), (2790, 2799), (2918, 2927), (3046, 3055),
   (3174, 3183), (3302, 3311), (3430, 3439), (3558, 3567), (3664, 3673),
   (3792, 3801), (3872, 3881), (4160, 4169), (4240, 4249), (6112, 6121),
   (6160, 6169), (6470, 6479), (6608, 6617), (6784, 6793), (6800, 6809),
   (6992, 7001), (7088, 7097), (7232, 7241), (7248, 7257), (42528, 42537),
   (43216, 43225), (43264, 43273), (43472, 43481), (43504, 43513),
   (43600, 43609), (44016, 44025), (65296, 65305), (66720, 66729),
   (68912, 68921), (69734, 69743), (69872, 69881), (69942, 69951),
   (70096, 70105), (70384, 70393), (70736, 70745), (70864, 70873),
   (71248, 71257), (71360, 71369), (71472, 71481), (71904, 71913),
   (72016, 72025), (72784, 72793), (73040, 73049), (73120, 73129),
   (92768, 92777), (92864, 92873), (93008, 93017), (120782, 120831),
   (123200, 123209), (123632, 123641), (125264, 125273), (130032, 130041)]

/-- Python's `\d` on `str`: any Unicode decimal digit (category Nd). -/
def pyDigit (c : Char) : Bool :=
  ndRanges.any (fun p => p.1 ≤ c.toNat && c.toNat ≤ p.2)

/-- `TimeManager.is_expired`: `datetime.now() > expiry`. -/
def is_expired (now expiry : ℤ) : Bool := expiry < now

/-- `TimeManager.get_remaining_days`: `max(0, (expiry - now).days)`,
where `timedelta.days` floors toward minus infinity. -/
def get_remaining_days (now expiry : ℤ) : ℤ :=
  max 0 (Int.fdiv (expiry - now) 86400)

/-- Matcher for the tail `\d{9}$` of the phone regex: consume `n`
Unicode decimal digits, then accept either the end of the string or a
single final newline (Python's `$` also matches just before a trailing
`'\n'`). -/
def matchDigitsThenEnd : ℕ → List Char → Bool
  | 0, [] => true
  | 0, [c] => c == '\n'
  | 0, _ :: _ :: _ => false
  | _ + 1, [] => false
  | n + 1, c :: rest => pyDigit c && matchDigitsThenEnd n rest

/-- `SecurityManager.validate_phone`:
`re.match(r'^1[3-9]\d{9}$', phone) is not None`. -/
def validate_phone (phone : String) : Bool :=
  match phone.toList with
  | c1 :: c2 :: rest =>
      c1 == '1' && decide ('3' ≤ c2) && decide (c2 ≤ '9') && matchDigitsThenEnd 9 rest
  | _ => false

/-- The shape the specification ascribes to `validate_phone`: an
11-character string of digits, starting with `'1'`, second character
`'3'`–`'9'`.  Stated from the spec's words, for comparison with the
embedded `validate_phone`. -/
def spec_phone_shape (phone : String) : Bool :=
  match phone.toList with
  | c1 :: c2 :: rest =>
      c1 == '1' && decide ('3' ≤ c2) && decide (c2 ≤ '9') &&
        rest.length == 9 && rest.all Char.isDigit
  | _ => false

/-- The shape the regex actually accepts before the end anchor: `'1'`,
a character in the (ASCII) class `[3-9]`, then nine Unicode decimal
digits.  Used to characterise `validate_phone`. -/
def py_phone_shape (phone : String) : Bool :=
  match phone.toList with
  | c1 :: c2 :: rest =>
      c1 == '1' && decide ('3' ≤ c2) && decide (c2 ≤ '9') &&
        rest.length == 9 && rest.all pyDigit
  | _ => false

/-- `SecurityManager.validate_password`: `len(password) == 4 and
password.isdigit()` (ASCII model of `isdigit`; claims apply this only
to ASCII inputs). -/
def validate_password (password : String) : Bool :=
  password.length == 4 && password.toList.all Char.isDigit

/-- `SecurityManager.hash_password` with the digest function abstract. -/
def hash_password (hashFn : String → String) (password : String) : String :=
  hashFn password

/-- Python `str.lower()` (ASCII model, character-wise). -/
def py_lower (s : String) : String :=
  String.mk (s.toList.map Char.toLower)

/-- Python `str.strip()`: drop whitespace from both ends. -/
def py_strip (s : String) : String :=
  String.mk (((s.toList.dropWhile Char.isWhitespace).reverse.dropWhile
    Char.isWhitespace).reverse)

/-- `SecurityManager.hash_answer`: digest of `answer.strip().lower()`. -/
def hash_answer (hashFn : String → String) (answer : String) : String :=
  hashFn (py_lower (py_strip answer))

/-- `SecurityManager.verify_password` against the stored field, which is
`None` until security setup completes (`hash == None` is `False`). -/
def verify_password (hashFn : String → String) (input : String)
    (stored : Option String) : Bool :=
  match stored with
  | none => false
  | some h => hash_password hashFn input == h

/-- `SecurityManager.verify_answer` against the stored field. -/
def verify_answer (hashFn : String → String) (input : String)
    (stored : Option String) : Bool :=
  match stored with
  | none => false
  | some h => hash_answer hashFn input == h

/-- One account record (one value of the `accounts` dict).  Registration
creates the first seven fields; `valid_days`/`created_at`/`expiry_time`
appear once a validity period is set, `last_modified` on the first
mutating operation.  Status strings are the source's own:
`"未设置有效期"` (unset), `"正常"` (active), `"已过期"` (expired). -/
structure Account where
  balance : ℚ
  last_four : String
  password : Option String
  security_question : Option String
  security_answer : Option String
  status : String
  registration_bonus : ℚ
  valid_days : Option ℤ := none
  created_at : Option ℤ := none
  expiry_time : Option ℤ := none
  last_modified : Option ℤ := none
deriving Repr, DecidableEq

/-- The `accounts` dict: phone → record, insertion order preserved. -/
abbrev Store := List (String × Account)

/-- Python dict assignment `accounts[phone] = a`: overwrite in place if
the key is present, else append (insertion order preserved). -/
def setAccount (store : Store) (phone : String) (a : Account) : Store :=
  if (store.lookup phone).isSome then
    store.map (fun p => if p.1 == phone then (phone, a) else p)
  else
    store ++ [(phone, a)]

/-- Python `del accounts[phone]`. -/
def eraseAccount (store : Store) (phone : String) : Store :=
  store.filter (fun p => !(p.1 == phone))

/-- `phone[-4:]`. -/
def lastFour (phone : String) : String :=
  String.mk (phone.toList.drop (phone.toList.length - 4))

/-- `Config.MAX_AUTH_ATTEMPTS`. -/
def MAX_AUTH_ATTEMPTS : ℕ := 3

/-- `Config.DEFAULT_REGISTRATION_BONUS`. -/
def DEFAULT_REGISTRATION_BONUS : ℚ := 50

/-- `Config.MIN_ANSWER_LENGTH`. -/
def MIN_ANSWER_LENGTH : ℕ := 2

/-- One already-read line of an authentication prompt: the `'0'`
sentinel, or an entered credential. -/
inductive AuthInput
  | back
  | entry (s : String)
deriving Repr, DecidableEq

/-- One already-read line of an amount prompt: sentinel, a string
`float(...)` rejects, or the parsed finite numeric amount.  Python's
`float(...)` additionally accepts `"nan"`/`"inf"`; the `nan` case,
which defeats the amount guards, is modelled by `PyFloat` and the
guard functions over it, and numeric-amount claims are scoped
accordingly. -/
inductive AmountInput
  | back
  | notNum
  | num (q : ℚ)
deriving Repr, DecidableEq

/-- One line of the registration-bonus prompt (empty line picks the
default bonus); `num` is the parsed finite numeric amount.  As with
`AmountInput`, the `"nan"` parse that `float(...)` also accepts is
modelled by `PyFloat` (see `registration_starting_balance`). -/
inductive BonusInput
  | back
  | empty
  | notNum
  | num (q : ℚ)
deriving Repr, DecidableEq

/-- One line of the validity-days prompt. -/
inductive DaysInput
  | back
  | notNum
  | num (d : ℤ)
deriving Repr, DecidableEq

/-- One round of a password prompt: sentinel, or entered password plus
its confirmation. -/
inductive PwInput
  | back
  | attempt (pw confirm : String)
deriving Repr, DecidableEq

/-- One line of the security-question menu. -/
inductive QuestionInput
  | back
  | notNum
  | num (n : ℤ)
deriving Repr, DecidableEq

/-- One round of the security-answer prompt (answer plus confirmation,
as typed; the code strips both). -/
inductive AnswerInput
  | back
  | attempt (ans confirm : String)
deriving Repr, DecidableEq

/-- Result of `AccountManager.set_registration_bonus` (lines 260-292):
the loop re-prompts on a parse failure or a negative amount, so a
returned amount is never negative; an empty line takes the default. -/
inductive BonusResult
  | cancelled
  | noInput
  | amount (q : ℚ)
deriving Repr, DecidableEq

def set_registration_bonus : List BonusInput → BonusResult
  | [] => .noInput
  | .back :: _ => .cancelled
  | .empty :: _ => .amount DEFAULT_REGISTRATION_BONUS
  | .notNum :: rest => set_registration_bonus rest
  | .num q :: rest =>
      if q < 0 then set_registration_bonus rest else .amount q

/-- Result of a registration sub-step that rewrites the store.
`keyError` models the uncaught `KeyError` on `accounts[phone]` when the
phone is absent (unreachable in the register flow). -/
inductive StoreStepResult
  | cancelled
  | noInput
  | keyError
  | ok (store : Store)
deriving Repr, DecidableEq

/-- `AccountManager.set_valid_days`: re-prompts on parse failure or a
non-positive day count; on success writes `valid_days`, `created_at`,
`expiry_time = now + valid_days` and `status = "正常"`. -/
def set_valid_days (now : ℤ) (store : Store) (phone : String) :
    List DaysInput → StoreStepResult
  | [] => .noInput
  | .back :: _ => .cancelled
  | .notNum :: rest => set_valid_days now store phone rest
  | .num d :: rest =>
    if d ≤ 0 then set_valid_days now store phone rest
    else match store.lookup phone with
      | none => .keyError
      | some a => .ok (setAccount store phone
          { a with valid_days := some d, created_at := some now,
                   expiry_time := some (now + d * 86400), status := "正常" })

/-- The 8 predefined security questions. -/
def common_questions : List String :=
  ["你最喜欢的颜色是什么？", "你的出生城市是？", "你的小学名称是？",
   "你宠物的名字是什么？", "你母亲的姓氏是？", "你最喜欢的电影是？",
   "你的第一所学校是？", "你最好的朋友名字是？"]

/-- First loop of `set_password_and_security`: validate the 4-digit
password, require matching confirmation, then store its hash. -/
def password_setup_loop (hashFn : String → String) (store : Store) (phone : String) :
    List PwInput → StoreStepResult
  | [] => .noInput
  | .back :: _ => .cancelled
  | .attempt pw confirm :: rest =>
    if !validate_password pw then password_setup_loop hashFn store phone rest
    else if pw ≠ confirm then password_setup_loop hashFn store phone rest
    else match store.lookup phone with
      | none => .keyError
      | some a =>
          .ok (setAccount store phone
            { a with password := some (hash_password hashFn pw) })

/-- Result of the security-question menu loop. -/
inductive QuestionResult
  | cancelled
  | noInput
  | question (q : String)
deriving Repr, DecidableEq

/-- Second loop of `set_password_and_security`: pick a question number
in `1..8`, re-prompting otherwise. -/
def question_choice_loop : List QuestionInput → QuestionResult
  | [] => .noInput
  | .back :: _ => .cancelled
  | .notNum :: rest => question_choice_loop rest
  | .num n :: rest =>
    if 1 ≤ n ∧ n ≤ 8 then .question (common_questions.getD (n - 1).toNat "")
    else question_choice_loop rest

/-- Third loop of `set_password_and_security`: the answer is stripped,
must be at least `MIN_ANSWER_LENGTH` long and match its confirmation
case-insensitively; then question and answer hash are stored together. -/
def answer_setup_loop (hashFn : String → String) (question : String)
    (store : Store) (phone : String) : List AnswerInput → StoreStepResult
  | [] => .noInput
  | .back :: _ => .cancelled
  | .attempt ansRaw confirmRaw :: rest =>
    let ans := py_strip ansRaw
    let confirm := py_strip confirmRaw
    if ans.length < MIN_ANSWER_LENGTH then
      answer_setup_loop hashFn question store phone rest
    else if py_lower ans ≠ py_lower confirm then
      answer_setup_loop hashFn question store phone rest
    else match store.lookup phone with
      | none => .keyError
      | some a => .ok (setAccount store phone
          { a with security_question := some question,
                   security_answer := some (hash_answer hashFn ans) })

/-- Overall result of `AccountManager.set_password_and_security`; each
failure carries the store as mutated so far (the password may already
have been written when a later loop is cancelled). -/
inductive SecSetupResult
  | cancelled (store : Store)
  | noInput (store : Store)
  | keyError (store : Store)
  | saveFailed (store : Store)
  | ok (store : Store)
deriving Repr, DecidableEq

/-- `AccountManager.set_password_and_security` (lines 323-404):
password loop, question menu, answer loop, then `last_modified` and a
`save_data` attempt. -/
def set_password_and_security (hashFn : String → String) (now : ℤ) (saveOk : Bool)
    (store : Store) (phone : String) (pwInputs : List PwInput)
    (qInputs : List QuestionInput) (ansInputs : List AnswerInput) : SecSetupResult :=
  match password_setup_loop hashFn store phone pwInputs with
  | .cancelled => .cancelled store
  | .noInput => .noInput store
  | .keyError => .keyError store
  | .ok store1 =>
    match question_choice_loop qInputs with
    | .cancelled => .cancelled store1
    | .noInput => .noInput store1
    | .question q =>
      match answer_setup_loop hashFn q store1 phone ansInputs with
      | .cancelled => .cancelled store1
      | .noInput => .noInput store1
      | .keyError => .keyError store1
      | .ok store2 =>
        match store2.lookup phone with
        | none => .keyError store2
        | some a =>
          let store3 := setAccount store2 phone { a with last_modified := some now }
          if saveOk then .ok store3 else .saveFailed store3

/-- `AccountManager.check_account_status` (lines 406-415): an account
already marked `"已过期"` is rejected outright; otherwise the stored
`expiry_time` is compared against the clock and a newly expired account
is marked `"已过期"` and a `save_data` is issued (its result ignored).
`none` models the uncaught `KeyError` on `info["expiry_time"]` for an
account that has no validity period configured.  The triple is
(status ok, account after the check, whether a save was attempted). -/
def check_account_status (now : ℤ) (a : Account) : Option (Bool × Account × Bool) :=
  if a.status == "已过期" then some (false, a, false)
  else match a.expiry_time with
    | none => none
    | some e =>
      if is_expired now e then some (false, { a with status := "已过期" }, true)
      else some (true, a, false)

/-- Outcome of a 3-attempt credential loop.  `failed` is the
source's unreachable fall-through return `"验证失败"` after the `while`
guard fails. -/
inductive AuthOutcome
  | success
  | cancelled
  | tooMany
  | failed
  | noInput
  | expiredFail
deriving Repr, DecidableEq

/-- The shared attempt loop of both authentication methods
(`while attempts > 0` with `attempts -= 1` on a wrong credential and an
immediate `"错误次数过多"` return when the counter reaches zero). -/
def auth_loop (check : String → Bool) : ℕ → List AuthInput → AuthOutcome
  | 0, _ => .failed
  | _ + 1, [] => .noInput
  | _ + 1, .back :: _ => .cancelled
  | n + 1, .entry s :: rest =>
    if check s then .success
    else if 0 < n then auth_loop check n rest
    else .tooMany

/-- `AccountManager.authenticate_with_password` (lines 417-446): status
check first (which may itself mark the account expired and save), then
up to `MAX_AUTH_ATTEMPTS` password comparisons.  The triple is
(outcome, account after the call, whether a save was attempted). -/
def authenticate_with_password (hashFn : String → String) (now : ℤ) (a : Account)
    (inputs : List AuthInput) : Option (AuthOutcome × Account × Bool) :=
  match check_account_status now a with
  | none => none
  | some (statusOk, a1, saved) =>
    if statusOk then
      some (auth_loop (fun s => verify_password hashFn s a1.password)
              MAX_AUTH_ATTEMPTS inputs, a1, saved)
    else some (.expiredFail, a1, saved)

/-- `AccountManager.authenticate_with_security_question` (lines
448-474): the same attempt loop over the stored answer hash, with no
account-status check and no mutation. -/
def authenticate_with_security_question (hashFn : String → String) (a : Account)
    (inputs : List AuthInput) : AuthOutcome :=
  auth_loop (fun s => verify_answer hashFn s a.security_answer) MAX_AUTH_ATTEMPTS inputs

/-- Outcome of `AccountManager.reset_password`; success and save
failure carry the account as left in memory (the source does not revert
the password write when the save fails). -/
inductive ResetOutcome
  | authFailed (o : AuthOutcome)
  | cancelled
  | noInput
  | success (a : Account)
  | saveFailed (a : Account)
deriving Repr, DecidableEq

/-- New-password loop of `AccountManager.reset_password` (lines
485-507): validate the 4-digit PIN, require matching confirmation,
write the hash and `last_modified`, then attempt a save. -/
def reset_pw_loop (hashFn : String → String) (now : ℤ) (saveOk : Bool) (a : Account) :
    List PwInput → ResetOutcome
  | [] => .noInput
  | .back :: _ => .cancelled
  | .attempt pw confirm :: rest =>
    if !validate_password pw then reset_pw_loop hashFn now saveOk a rest
    else if pw ≠ confirm then reset_pw_loop hashFn now saveOk a rest
    else if saveOk then
      .success { a with password := some (hash_password hashFn pw),
                        last_modified := some now }
    else
      .saveFailed { a with password := some (hash_password hashFn pw),
                           last_modified := some now }

/-- `AccountManager.reset_password` (lines 476-507): security-question
authentication, then the new-password loop.  No status/expiry check is
performed on this path. -/
def reset_password (hashFn : String → String) (now : ℤ) (saveOk : Bool) (a : Account)
    (authInputs : List AuthInput) (pwInputs : List PwInput) : ResetOutcome :=
  match authenticate_with_security_question hashFn a authInputs with
  | .success => reset_pw_loop hashFn now saveOk a pwInputs
  | o => .authFailed o

/-- Outcome of `PhoneAccountSystem.find_account`. -/
inductive FindOutcome
  | invalidTail
  | notFound
  | found (phone : String) (a : Account)
deriving Repr, DecidableEq

/-- `PhoneAccountSystem.find_account` (lines 628-642): a string of
valid phone shape is looked up directly; otherwise it must be exactly 4
digits (`isdigit`, ASCII model) and is matched against `last_four`. -/
def find_account (store : Store) (identifier : String) : FindOutcome :=
  if validate_phone identifier then
    match store.lookup identifier with
    | some a => .found identifier a
    | none => .notFound
  else if identifier.length == 4 && identifier.toList.all Char.isDigit then
    match store.find? (fun p => p.2.last_four == identifier) with
    | some p => .found p.1 p.2
    | none => .notFound
  else .invalidTail

/-- One pass of the body of a recharge/deduct amount loop.  The three
middle constructors are the re-prompt cases (invalid number, `≤ 0`
amount, insufficient balance); `success`/`saveFailed` carry the account
written back to the store, a `saveFailed` with the balance reverted but
`last_modified` left at the new timestamp (lines 681-692 / 735-746). -/
inductive MutateStep
  | cancelled
  | notNumber
  | nonPositive
  | insufficient
  | success (a : Account)
  | saveFailed (a : Account)
deriving Repr, DecidableEq

/-- Body of the recharge amount loop (lines 665-692): any positive
amount is added to the balance, `last_modified` updated, then a save is
attempted; on save failure only the balance is restored.  The `ℚ`
addition idealises the source's float `+=` as exact; the
binary64-faithful counterpart for rounding-sensitive properties is
`recharge_step_fl`. -/
def recharge_step (now : ℤ) (saveOk : Bool) (a : Account) : AmountInput → MutateStep
  | .back => .cancelled
  | .notNum => .notNumber
  | .num q =>
    if q ≤ 0 then .nonPositive
    else if saveOk then
      .success { a with balance := a.balance + q, last_modified := some now }
    else
      .saveFailed { { a with balance := a.balance + q, last_modified := some now }
                    with balance := a.balance }

/-- Body of the deduct amount loop (lines 715-746): as `recharge_step`
but with the insufficiency guard `info["balance"] < amount_float`
checked before any mutation.  The binary64-faithful counterpart is
`deduct_step_fl`. -/
def deduct_step (now : ℤ) (saveOk : Bool) (a : Account) : AmountInput → MutateStep
  | .back => .cancelled
  | .notNum => .notNumber
  | .num q =>
    if q ≤ 0 then .nonPositive
    else if a.balance < q then .insufficient
    else if saveOk then
      .success { a with balance := a.balance - q, last_modified := some now }
    else
      .saveFailed { { a with balance := a.balance - q, last_modified := some now }
                    with balance := a.balance }

/-- Terminal outcome of an amount loop. -/
inductive MutateOutcome
  | cancelled
  | noInput
  | success (a : Account)
  | saveFailed (a : Account)
deriving Repr, DecidableEq

/-- The recharge amount loop: re-prompts (recurses) on the non-terminal
step results. -/
def recharge_amount_loop (now : ℤ) (saveOk : Bool) (a : Account) :
    List AmountInput → MutateOutcome
  | [] => .noInput
  | i :: rest =>
    match recharge_step now saveOk a i with
    | .cancelled => .cancelled
    | .notNumber => recharge_amount_loop now saveOk a rest
    | .nonPositive => recharge_amount_loop now saveOk a rest
    | .insufficient => recharge_amount_loop now saveOk a rest
    | .success a1 => .success a1
    | .saveFailed a1 => .saveFailed a1

/-- The deduct amount loop: the insufficiency case re-prompts with the
account untouched, exactly like the two parse-failure cases. -/
def deduct_amount_loop (now : ℤ) (saveOk : Bool) (a : Account) :
    List AmountInput → MutateOutcome
  | [] => .noInput
  | i :: rest =>
    match deduct_step now saveOk a i with
    | .cancelled => .cancelled
    | .notNumber => deduct_amount_loop now saveOk a rest
    | .nonPositive => deduct_amount_loop now saveOk a rest
    | .insufficient => deduct_amount_loop now saveOk a rest
    | .success a1 => .success a1
    | .saveFailed a1 => .saveFailed a1

/-- Outcome of a full recharge/deduct call. -/
inductive LedgerOutcome
  | notFound
  | invalidIdentifier
  | keyError
  | authFailed (o : AuthOutcome)
  | cancelled
  | noInput
  | saveFailed
  | success (newBalance : ℚ)
deriving Repr, DecidableEq

/-- `PhoneAccountSystem.recharge` (lines 644-692), one pass of the
outer identifier loop: find the account, authenticate (whose status
check may write an expiry transition back into the store), then run the
amount loop and write the resulting account back.  The `ℕ` counts
`save_data` calls. -/
def recharge (hashFn : String → String) (now : ℤ) (saveOk : Bool) (store : Store)
    (identifier : String) (authInputs : List AuthInput)
    (amountInputs : List AmountInput) : LedgerOutcome × Store × ℕ :=
  match find_account store identifier with
  | .invalidTail => (.invalidIdentifier, store, 0)
  | .notFound => (.notFound, store, 0)
  | .found phone a =>
    match authenticate_with_password hashFn now a authInputs with
    | none => (.keyError, store, 0)
    | some (o, a1, saved) =>
      let store1 := setAccount store phone a1
      let n1 : ℕ := if saved then 1 else 0
      match o with
      | .success =>
        match recharge_amount_loop now saveOk a1 amountInputs with
        | .cancelled => (.cancelled, store1, n1)
        | .noInput => (.noInput, store1, n1)
        | .success a2 => (.success a2.balance, setAccount store1 phone a2, n1 + 1)
        | .saveFailed a2 => (.saveFailed, setAccount store1 phone a2, n1 + 1)
      | o1 => (.authFailed o1, store1, n1)

/-- `PhoneAccountSystem.deduct` (lines 694-746), one pass of the outer
identifier loop; same shape as `recharge` with the deduct amount loop. -/
def deduct (hashFn : String → String) (now : ℤ) (saveOk : Bool) (store : Store)
    (identifier : String) (authInputs : List AuthInput)
    (amountInputs : List AmountInput) : LedgerOutcome × Store × ℕ :=
  match find_account store identifier with
  | .invalidTail => (.invalidIdentifier, store, 0)
  | .notFound => (.notFound, store, 0)
  | .found phone a =>
    match authenticate_with_password hashFn now a authInputs with
    | none => (.keyError, store, 0)
    | some (o, a1, saved) =>
      let store1 := setAccount store phone a1
      let n1 : ℕ := if saved then 1 else 0
      match o with
      | .success =>
        match deduct_amount_loop now saveOk a1 amountInputs with
        | .cancelled => (.cancelled, store1, n1)
        | .noInput => (.noInput, store1, n1)
        | .success a2 => (.success a2.balance, setAccount store1 phone a2, n1 + 1)
        | .saveFailed a2 => (.saveFailed, setAccount store1 phone a2, n1 + 1)
      | o1 => (.authFailed o1, store1, n1)

/-- Outcome of `PhoneAccountSystem.register_phone`.  The source's outer
loop re-prompts on the first three; they are reported as outcomes of a
single pass here. -/
inductive RegisterOutcome
  | invalidPhone
  | duplicatePhone
  | duplicateTail
  | cancelled
  | noInput
  | keyError
  | saveFailed
  | ok
deriving Repr, DecidableEq

/-- `PhoneAccountSystem.register_phone` (lines 559-626): format,
duplicate-phone and duplicate-tail checks; bonus step; provisional
record creation; validity-period step and security-setup step, each of
whose failures deletes the provisional record (`del accounts[phone]`). -/
def register_phone (hashFn : String → String) (now : ℤ) (saveOk : Bool) (store : Store)
    (phone : String) (bonusInputs : List BonusInput) (daysInputs : List DaysInput)
    (pwInputs : List PwInput) (qInputs : List QuestionInput)
    (ansInputs : List AnswerInput) : RegisterOutcome × Store :=
  if !validate_phone phone then (.invalidPhone, store)
  else if (store.lookup phone).isSome then (.duplicatePhone, store)
  else if store.any (fun p => p.2.last_four == lastFour phone) then (.duplicateTail, store)
  else
    match set_registration_bonus bonusInputs with
    | .cancelled => (.cancelled, store)
    | .noInput => (.noInput, store)
    | .amount bonus =>
      let store1 := setAccount store phone
        { balance := bonus, last_four := lastFour phone, password := none,
          security_question := none, security_answer := none,
          status := "未设置有效期", registration_bonus := bonus }
      match set_valid_days now store1 phone daysInputs with
      | .cancelled => (.cancelled, eraseAccount store1 phone)
      | .noInput => (.noInput, store1)
      | .keyError => (.keyError, store1)
      | .ok store2 =>
        match set_password_and_security hashFn now saveOk store2 phone
                pwInputs qInputs ansInputs with
        | .cancelled s => (.cancelled, eraseAccount s phone)
        | .noInput s => (.noInput, s)
        | .keyError s => (.keyError, s)
        | .saveFailed s => (.saveFailed, eraseAccount s phone)
        | .ok s => (.ok, s)

/-- How `check_expired_accounts` classifies one account: the two
printed categories, the silent in-validity case, and accounts with no
`expiry_time` (skipped by the scan). -/
inductive ExpiryStatus
  | expired
  | expiring
  | normal
  | unconfigured
deriving Repr, DecidableEq

/-- Classification of one account by the scan (lines 829-839):
`is_expired` first, then the `remaining_days <= 3` threshold. -/
def classify_account (now : ℤ) (a : Account) : ExpiryStatus :=
  match a.expiry_time with
  | none => .unconfigured
  | some e =>
    if is_expired now e then .expired
    else if get_remaining_days now e ≤ 3 then .expiring
    else .normal

/-- `PhoneAccountSystem.check_expired_accounts` (lines 821-846): a pure
scan — per-account classification plus the two counters; the store is
returned as the loop leaves it (it only reads). -/
def check_expired_accounts (now : ℤ) (store : Store) :
    (List (String × ExpiryStatus)) × ℕ × ℕ × Store :=
  (store.map (fun p => (p.1, classify_account now p.2)),
   (store.filter (fun p => classify_account now p.2 == .expired)).length,
   (store.filter (fun p => classify_account now p.2 == .expiring)).length,
   store)

/-- The store carried by a `SecSetupResult`, whatever the outcome. -/
def SecSetupResult.store : SecSetupResult → Store
  | .cancelled s => s
  | .noInput s => s
  | .keyError s => s
  | .saveFailed s => s
  | .ok s => s

/-- The non-negative-balance invariant over the whole store. -/
def storeNonneg (store : Store) : Prop :=
  ∀ p ∈ store, 0 ≤ p.2.balance

/-- The store's keys are pairwise distinct (always true of a Python
dict; association-list stores built by the operations preserve it). -/
def keysNodup (store : Store) : Prop :=
  (store.map Prod.fst).Nodup

/-- A concrete fully-registered, in-validity account (digest function
`id`, password `"1111"`, security answer `"blue"`), used in examples. -/
def sampleAccount : Account :=
  { balance := 50
    last_four := "1234"
    password := some "1111"
    security_question := some "你最喜欢的颜色是什么？"
    security_answer := some "blue"
    status := "正常"
    registration_bonus := 50
    valid_days := some 30
    created_at := some 0
    expiry_time := some 2592000
    last_modified := some 0 }

/-- A one-account store around `sampleAccount`. -/
def sampleStore : Store := [("13800001234", sampleAccount)]

/-- `sampleAccount` with its validity window already in the past. -/
def sampleExpiredAccount : Account :=
  { sampleAccount with expiry_time := some 5 }

/-- A secured account with zero balance, used in examples. -/
def sampleZeroAccount : Account :=
  { sampleAccount with balance := 0 }

/-! ### Python float pathologies the `ℚ` idealisation hides

Two faithful fragments for the claims that are sensitive to them: the
`nan` value `float(...)` accepts (all of whose comparisons are false),
and binary64 rounding of `+`/`-`. -/

/-- A parsed Python float: a finite value (idealised as an exact
rational) or `nan`.  `float(...)` accepts the strings `"nan"` and
`"inf"` besides numerals; `inf` compares like an upper bound and never
produces a negative balance, so only `nan` is modelled. -/
inductive PyFloat
  | num (q : ℚ)
  | nan
deriving Repr, DecidableEq

/-- Python `<` on floats: every comparison involving `nan` is false. -/
def pyLt : PyFloat → PyFloat → Bool
  | .num a, .num b => a < b
  | _, _ => false

/-- Python `<=` on floats: every comparison involving `nan` is false. -/
def pyLe : PyFloat → PyFloat → Bool
  | .num a, .num b => a ≤ b
  | _, _ => false

/-- Python `+` on floats: `nan` is absorbing. -/
def pyAdd : PyFloat → PyFloat → PyFloat
  | .num a, .num b => .num (a + b)
  | _, _ => .nan

/-- Python `-` on floats: `nan` is absorbing. -/
def pySub : PyFloat → PyFloat → PyFloat
  | .num a, .num b => .num (a - b)
  | _, _ => .nan

/-- "balance ≥ 0" as the program would evaluate it: false for `nan`. -/
def pyNonneg (x : PyFloat) : Bool := pyLe (.num 0) x

/-- Lines 280-292 and 599-607 over the parsed float: the bonus loop
re-prompts only when `bonus_amount < 0`, and the accepted value becomes
the starting balance of the created account. -/
def registration_starting_balance (bonus : PyFloat) : Option PyFloat :=
  if pyLt bonus (.num 0) then none else some bonus

/-- Lines 672-682 over parsed floats: the recharge guard
`amount_float <= 0` and the balance update `+=`. -/
def recharge_result (balance amount : PyFloat) : Option PyFloat :=
  if pyLe amount (.num 0) then none else some (pyAdd balance amount)

/-- Lines 722-736 over parsed floats: the deduct guards
`amount_float <= 0` and `info["balance"] < amount_float`, then `-=`. -/
def deduct_result (balance amount : PyFloat) : Option PyFloat :=
  if pyLe amount (.num 0) then none
  else if pyLt balance amount then none
  else some (pySub balance amount)

/-- `⌊log2 n⌋` for `n ≥ 1`, by fuelled halving (the fuel only bounds
the recursion; `n` halvings always suffice). -/
def log2fuel : ℕ → ℕ → ℕ
  | 0, _ => 0
  | f + 1, n => if n ≤ 1 then 0 else log2fuel f (n / 2) + 1

/-- `⌊log2 n⌋` for a natural number `n ≥ 1`. -/
def floorLog2Nat (n : ℕ) : ℕ := log2fuel n n

/-- `q * 2^e` for an integer exponent, written with `mkRat` so that it
evaluates by kernel reduction (field division on `ℚ` does not). -/
def mulPow2 (q : ℚ) (e : ℤ) : ℚ :=
  match e with
  | .ofNat n => q * ((2 ^ n : ℕ) : ℚ)
  | .negSucc n => q * mkRat 1 (2 ^ (n + 1))

/-- `⌊log2 q⌋` for a positive rational: the bit-length estimate from
numerator and denominator, corrected by one explicit comparison. -/
def floorLog2Rat (q : ℚ) : ℤ :=
  let l : ℤ := (floorLog2Nat q.num.toNat : ℤ) - (floorLog2Nat q.den : ℤ)
  if mulPow2 1 l ≤ q then l else l - 1

/-- `⌊x⌋` for a positive rational. -/
def ratFloorPos (x : ℚ) : ℤ := x.num / (x.den : ℤ)

/-- Round a rational to the nearest IEEE-754 binary64 value (53-bit
significand, round half to even), as an exact rational.  Normal range
only — no overflow or subnormal handling, which the ledger's magnitudes
never reach.  This is the value semantics of Python float arithmetic:
each `+`/`-` computes the exact result and rounds it. -/
def roundDouble (q : ℚ) : ℚ :=
  if q = 0 then 0
  else
    let s : ℚ := if q < 0 then -q else q
    let e : ℤ := floorLog2Rat s - 52
    let x : ℚ := mulPow2 s (-e)
    let n0 : ℤ := ratFloorPos x
    let r : ℚ := x - (n0 : ℚ)
    let n : ℤ :=
      if r < mkRat 1 2 then n0
      else if mkRat 1 2 < r then n0 + 1
      else if n0 % 2 = 0 then n0 else n0 + 1
    (if q < 0 then -1 else 1) * mulPow2 (n : ℚ) e

/-- Binary64 addition: exact sum, then rounding. -/
def fl_add (a b : ℚ) : ℚ := roundDouble (a + b)

/-- Binary64 subtraction: exact difference, then rounding. -/
def fl_sub (a b : ℚ) : ℚ := roundDouble (a - b)

/-- `recharge_step` with the source's float `+=` given its binary64
semantics instead of exact `ℚ` addition (lines 665-692). -/
def recharge_step_fl (now : ℤ) (saveOk : Bool) (a : Account) : AmountInput → MutateStep
  | .back => .cancelled
  | .notNum => .notNumber
  | .num q =>
    if q ≤ 0 then .nonPositive
    else if saveOk then
      .success { a with balance := fl_add a.balance q, last_modified := some now }
    else
      .saveFailed { { a with balance := fl_add a.balance q, last_modified := some now }
                    with balance := a.balance }

/-- `deduct_step` with the source's float `-=` given its binary64
semantics instead of exact `ℚ` subtraction (lines 715-746). -/
def deduct_step_fl (now : ℤ) (saveOk : Bool) (a : Account) : AmountInput → MutateStep
  | .back => .cancelled
  | .notNum => .notNumber
  | .num q =>
    if q ≤ 0 then .nonPositive
    else if a.balance < q then .insufficient
    else if saveOk then
      .success { a with balance := fl_sub a.balance q, last_modified := some now }
    else
      .saveFailed { { a with balance := fl_sub a.balance q, last_modified := some now }
                    with balance := a.balance }

/-- `sampleAccount` holding the double nearest `0.1` — the stored
balance after the operator entered `0.1`. -/
def sampleTenthAccount : Account :=
  { sampleAccount with balance := roundDouble (mkRat 1 10) }

/-! ## Supporting lemmas about the store -/

theorem lookup_mem : ∀ {store : Store} {k : String} {v : Account},
    store.lookup k = some v → (k, v) ∈ store := by
  intro store
  induction store with
  | nil => intro k v h; simp [List.lookup] at h
  | cons p rest ih =>
    intro k v h
    obtain ⟨k1, v1⟩ := p
    rw [List.lookup] at h
    cases hk : k == k1 with
    | true =>
      rw [hk] at h
      obtain rfl := eq_of_beq hk
      cases h
      exact List.mem_cons_self _ _
    | false =>
      rw [hk] at h
      exact List.mem_cons_of_mem _ (ih h)

theorem setAccount_nonneg {store : Store} {k : String} {a : Account}
    (h : storeNonneg store) (ha : 0 ≤ a.balance) :
    storeNonneg (setAccount store k a) := by
  intro p hp
  unfold setAccount at hp
  split at hp
  · obtain ⟨q, hq, hpq⟩ := List.mem_map.1 hp
    cases h1 : q.1 == k with
    | true => rw [h1] at hpq; simp at hpq; subst hpq; exact ha
    | false => rw [h1] at hpq; simp at hpq; subst hpq; exact h q hq
  · rcases List.mem_append.1 hp with h1 | h1
    · exact h p h1
    · rcases List.mem_singleton.1 h1 with rfl
      exact ha

theorem erase_nonneg {store : Store} {k : String} (h : storeNonneg store) :
    storeNonneg (eraseAccount store k) := by
  intro p hp
  exact h p (List.mem_of_mem_filter hp)

theorem filter_map_overwrite (k : String) (a : Account) :
    ∀ rest : List (String × Account),
    List.filter (fun p => !(p.1 == k)) (rest.map (fun p => if p.1 == k then (k, a) else p)) =
      List.filter (fun p => !(p.1 == k)) rest := by
  intro rest
  induction rest with
  | nil => rfl
  | cons p t ih =>
    simp at ih
    by_cases h1 : p.1 = k
    · simp [h1, ih]
    · simp [h1, ih]

theorem erase_setAccount (store : Store) (k : String) (a : Account) :
    eraseAccount (setAccount store k a) k = eraseAccount store k := by
  unfold setAccount eraseAccount
  split
  · exact filter_map_overwrite k a store
  · simp [List.filter_append]

theorem erase_of_lookup_none : ∀ {store : Store} {k : String},
    store.lookup k = none → eraseAccount store k = store := by
  intro store
  induction store with
  | nil => intro k _; rfl
  | cons p rest ih =>
    intro k h
    obtain ⟨k1, v1⟩ := p
    rw [List.lookup] at h
    cases hk : k == k1 with
    | true => rw [hk] at h; cases h
    | false =>
      rw [hk] at h
      have hk1 : ¬(k1 = k) := by
        intro he
        subst he
        rw [beq_self_eq_true] at hk
        cases hk
      have ihr : eraseAccount rest k = rest := ih h
      unfold eraseAccount at ihr ⊢
      simp [hk1, ihr]

theorem map_overwrite_self : ∀ {store : Store} {k : String} {v : Account},
    keysNodup store → store.lookup k = some v →
    store.map (fun p => if p.1 == k then (k, v) else p) = store := by
  intro store
  induction store with
  | nil => intro k v _ h; simp [List.lookup] at h
  | cons p rest ih =>
    intro k v hnd h
    obtain ⟨k1, v1⟩ := p
    have hnd1 : keysNodup rest := by
      unfold keysNodup at hnd ⊢
      simp only [List.map_cons, List.nodup_cons] at hnd
      exact hnd.2
    have hk1notin : k1 ∉ rest.map Prod.fst := by
      unfold keysNodup at hnd
      simp only [List.map_cons, List.nodup_cons] at hnd
      exact hnd.1
    rw [List.lookup] at h
    cases hk : k == k1 with
    | true =>
      rw [hk] at h
      obtain rfl := eq_of_beq hk
      have hv : v1 = v := by
        have h2 : some v1 = some v := h
        exact Option.some.inj h2
      subst hv
      have hrest : rest.map (fun p => if p.1 == k then (k, v1) else p) = rest := by
        conv_rhs => rw [← List.map_id rest]
        apply List.map_congr_left
        intro q hq
        have hqk : q.1 ≠ k := by
          intro he
          exact hk1notin (he ▸ List.mem_map_of_mem Prod.fst hq)
        simp [hqk]
      simp only [List.map_cons]
      rw [hrest]
      simp
    | false =>
      rw [hk] at h
      have hne : ¬(k1 = k) := by
        intro he; subst he; rw [beq_self_eq_true] at hk; cases hk
      simp only [List.map_cons]
      rw [ih hnd1 h]
      simp [hne]

theorem setAccount_self {store : Store} {k : String} {v : Account}
    (hnd : keysNodup store) (h : store.lookup k = some v) :
    setAccount store k v = store := by
  unfold setAccount
  rw [h]
  simp only [Option.isSome_some, if_true]
  exact map_overwrite_self hnd h

theorem find_account_mem {store : Store} {ident phone : String} {a : Account}
    (h : find_account store ident = .found phone a) : (phone, a) ∈ store := by
  unfold find_account at h
  split at h
  · cases hl : store.lookup ident with
    | none => rw [hl] at h; cases h
    | some v =>
      rw [hl] at h
      cases h
      exact lookup_mem hl
  · split at h
    · cases hf : store.find? (fun p => p.2.last_four == ident) with
      | none => rw [hf] at h; cases h
      | some p =>
        rw [hf] at h
        cases h
        exact List.mem_of_find?_eq_some hf
    · cases h

theorem set_registration_bonus_nonneg : ∀ {l : List BonusInput} {q : ℚ},
    set_registration_bonus l = .amount q → 0 ≤ q := by
  intro l
  induction l with
  | nil => intro q h; simp [set_registration_bonus] at h
  | cons i rest ih =>
    intro q h
    cases i with
    | back => simp [set_registration_bonus] at h
    | empty =>
      rw [set_registration_bonus] at h
      cases h
      norm_num [DEFAULT_REGISTRATION_BONUS]
    | notNum => exact ih h
    | num q1 =>
      rw [set_registration_bonus] at h
      split at h
      · exact ih h
      · next hneg =>
        cases h
        exact not_lt.1 hneg

theorem check_account_status_balance {now : ℤ} {a : Account} {ok : Bool}
    {a1 : Account} {sv : Bool}
    (h : check_account_status now a = some (ok, a1, sv)) :
    a1.balance = a.balance ∧ a1.registration_bonus = a.registration_bonus := by
  revert h
  unfold check_account_status
  split
  · intro h; cases h; exact ⟨rfl, rfl⟩
  · split
    · intro h; cases h
    · split
      · intro h; cases h; exact ⟨rfl, rfl⟩
      · intro h; cases h; exact ⟨rfl, rfl⟩

theorem auth_pw_balance {hashFn : String → String} {now : ℤ} {a : Account}
    {inputs : List AuthInput} {o : AuthOutcome} {a1 : Account} {sv : Bool}
    (h : authenticate_with_password hashFn now a inputs = some (o, a1, sv)) :
    a1.balance = a.balance ∧ a1.registration_bonus = a.registration_bonus := by
  revert h
  unfold authenticate_with_password
  cases hs : check_account_status now a with
  | none => intro h; cases h
  | some t =>
    obtain ⟨ok, a2, sv2⟩ := t
    have hb := check_account_status_balance hs
    split
    · next h1 => cases h1
    · next statusOk a3 saved h2 =>
      cases h2
      split
      · intro h; cases h; exact hb
      · intro h; cases h; exact hb

theorem recharge_loop_success {now : ℤ} {saveOk : Bool} {a : Account} :
    ∀ {l : List AmountInput} {a2 : Account},
    recharge_amount_loop now saveOk a l = .success a2 →
    ∃ q, 0 < q ∧ a2 = { a with balance := a.balance + q, last_modified := some now } := by
  intro l
  induction l with
  | nil => intro a2 h; simp [recharge_amount_loop] at h
  | cons i rest ih =>
    intro a2 h
    rw [recharge_amount_loop] at h
    cases i with
    | back => simp [recharge_step] at h
    | notNum => exact ih h
    | num q =>
      by_cases hq : q ≤ 0
      · simp only [recharge_step, if_pos hq] at h
        exact ih h
      · cases hsv : saveOk with
        | true =>
          simp only [recharge_step, if_neg hq, hsv, if_true] at h
          cases h
          exact ⟨q, lt_of_not_le hq, rfl⟩
        | false =>
          simp only [recharge_step, if_neg hq, hsv] at h
          cases h

theorem recharge_loop_saveFailed {now : ℤ} {saveOk : Bool} {a : Account} :
    ∀ {l : List AmountInput} {a2 : Account},
    recharge_amount_loop now saveOk a l = .saveFailed a2 →
    a2 = { a with last_modified := some now } := by
  intro l
  induction l with
  | nil => intro a2 h; simp [recharge_amount_loop] at h
  | cons i rest ih =>
    intro a2 h
    rw [recharge_amount_loop] at h
    cases i with
    | back => simp [recharge_step] at h
    | notNum => exact ih h
    | num q =>
      by_cases hq : q ≤ 0
      · simp only [recharge_step, if_pos hq] at h
        exact ih h
      · cases hsv : saveOk with
        | true =>
          simp only [recharge_step, if_neg hq, hsv, if_true] at h
          cases h
        | false =>
          simp only [recharge_step, if_neg hq, hsv] at h
          cases h
          rfl

theorem deduct_loop_success {now : ℤ} {saveOk : Bool} {a : Account} :
    ∀ {l : List AmountInput} {a2 : Account},
    deduct_amount_loop now saveOk a l = .success a2 →
    ∃ q, 0 < q ∧ q ≤ a.balance ∧
      a2 = { a with balance := a.balance - q, last_modified := some now } := by
  intro l
  induction l with
  | nil => intro a2 h; simp [deduct_amount_loop] at h
  | cons i rest ih =>
    intro a2 h
    rw [deduct_amount_loop] at h
    cases i with
    | back => simp [deduct_step] at h
    | notNum => exact ih h
    | num q =>
      by_cases hq : q ≤ 0
      · simp only [deduct_step, if_pos hq] at h
        exact ih h
      · by_cases hins : a.balance < q
        · simp only [deduct_step, if_neg hq, if_pos hins] at h
          exact ih h
        · cases hsv : saveOk with
          | true =>
            simp only [deduct_step, if_neg hq, if_neg hins, hsv, if_true] at h
            cases h
            exact ⟨q, lt_of_not_le hq, not_lt.1 hins, rfl⟩
          | false =>
            simp only [deduct_step, if_neg hq, if_neg hins, hsv] at h
            cases h

theorem deduct_loop_saveFailed {now : ℤ} {saveOk : Bool} {a : Account} :
    ∀ {l : List AmountInput} {a2 : Account},
    deduct_amount_loop now saveOk a l = .saveFailed a2 →
    a2 = { a with last_modified := some now } := by
  intro l
  induction l with
  | nil => intro a2 h; simp [deduct_amount_loop] at h
  | cons i rest ih =>
    intro a2 h
    rw [deduct_amount_loop] at h
    cases i with
    | back => simp [deduct_step] at h
    | notNum => exact ih h
    | num q =>
      by_cases hq : q ≤ 0
      · simp only [deduct_step, if_pos hq] at h
        exact ih h
      · by_cases hins : a.balance < q
        · simp only [deduct_step, if_neg hq, if_pos hins] at h
          exact ih h
        · cases hsv : saveOk with
          | true =>
            simp only [deduct_step, if_neg hq, if_neg hins, hsv, if_true] at h
            cases h
          | false =>
            simp only [deduct_step, if_neg hq, if_neg hins, hsv] at h
            cases h
            rfl

theorem set_valid_days_ok_erase {now : ℤ} {s : Store} {k : String} :
    ∀ {l : List DaysInput} {s1 : Store},
    set_valid_days now s k l = .ok s1 → eraseAccount s1 k = eraseAccount s k := by
  intro l
  induction l with
  | nil => intro s1 h; cases h
  | cons i rest ih =>
    intro s1 h
    cases i with
    | back => cases h
    | notNum => exact ih h
    | num d =>
      revert h
      simp only [set_valid_days]
      split
      · intro h; exact ih h
      · split
        · intro h; cases h
        · intro h; cases h; exact erase_setAccount _ _ _

theorem password_setup_ok_erase {hashFn : String → String} {s : Store} {k : String} :
    ∀ {l : List PwInput} {s1 : Store},
    password_setup_loop hashFn s k l = .ok s1 → eraseAccount s1 k = eraseAccount s k := by
  intro l
  induction l with
  | nil => intro s1 h; cases h
  | cons i rest ih =>
    intro s1 h
    cases i with
    | back => cases h
    | attempt pw confirm =>
      revert h
      simp only [password_setup_loop]
      split
      · intro h; exact ih h
      · split
        · intro h; exact ih h
        · split
          · intro h; cases h
          · intro h; cases h; exact erase_setAccount _ _ _

theorem answer_setup_ok_erase {hashFn : String → String} {question : String}
    {s : Store} {k : String} :
    ∀ {l : List AnswerInput} {s1 : Store},
    answer_setup_loop hashFn question s k l = .ok s1 →
      eraseAccount s1 k = eraseAccount s k := by
  intro l
  induction l with
  | nil => intro s1 h; cases h
  | cons i rest ih =>
    intro s1 h
    cases i with
    | back => cases h
    | attempt ans confirm =>
      revert h
      simp only [answer_setup_loop]
      split
      · intro h; exact ih h
      · split
        · intro h; exact ih h
        · split
          · intro h; cases h
          · intro h; cases h; exact erase_setAccount _ _ _

theorem sec_setup_erase {hashFn : String → String} {now : ℤ} {saveOk : Bool}
    {s : Store} {k : String} {pwIn : List PwInput} {qIn : List QuestionInput}
    {ansIn : List AnswerInput} :
    eraseAccount (set_password_and_security hashFn now saveOk s k pwIn qIn ansIn).store k =
      eraseAccount s k := by
  unfold set_password_and_security
  cases hp : password_setup_loop hashFn s k pwIn with
  | cancelled => simp [SecSetupResult.store]
  | noInput => simp [SecSetupResult.store]
  | keyError => simp [SecSetupResult.store]
  | ok s1 =>
    have e1 := password_setup_ok_erase hp
    cases hq : question_choice_loop qIn with
    | cancelled => simp [SecSetupResult.store, e1]
    | noInput => simp [SecSetupResult.store, e1]
    | question q =>
      cases ha : answer_setup_loop hashFn q s1 k ansIn with
      | cancelled => simp [SecSetupResult.store, ha, e1]
      | noInput => simp [SecSetupResult.store, ha, e1]
      | keyError => simp [SecSetupResult.store, ha, e1]
      | ok s2 =>
        have e2 := answer_setup_ok_erase ha
        cases hl : s2.lookup k with
        | none => simp [SecSetupResult.store, ha, hl, e2, e1]
        | some a =>
          cases saveOk with
          | true => simp [SecSetupResult.store, ha, hl, erase_setAccount, e2, e1]
          | false => simp [SecSetupResult.store, ha, hl, erase_setAccount, e2, e1]

theorem set_valid_days_ok_nonneg {now : ℤ} {s : Store} {k : String}
    (hs : storeNonneg s) :
    ∀ {l : List DaysInput} {s1 : Store},
    set_valid_days now s k l = .ok s1 → storeNonneg s1 := by
  intro l
  induction l with
  | nil => intro s1 h; cases h
  | cons i rest ih =>
    intro s1 h
    cases i with
    | back => cases h
    | notNum => exact ih h
    | num d =>
      revert h
      simp only [set_valid_days]
      split
      · intro h; exact ih h
      · split
        · intro h; cases h
        · next a heq =>
          intro h; cases h
          exact setAccount_nonneg hs (hs _ (lookup_mem heq))

theorem password_setup_ok_nonneg {hashFn : String → String} {s : Store} {k : String}
    (hs : storeNonneg s) :
    ∀ {l : List PwInput} {s1 : Store},
    password_setup_loop hashFn s k l = .ok s1 → storeNonneg s1 := by
  intro l
  induction l with
  | nil => intro s1 h; cases h
  | cons i rest ih =>
    intro s1 h
    cases i with
    | back => cases h
    | attempt pw confirm =>
      revert h
      simp only [password_setup_loop]
      split
      · intro h; exact ih h
      · split
        · intro h; exact ih h
        · split
          · intro h; cases h
          · next a heq =>
            intro h; cases h
            exact setAccount_nonneg hs (hs _ (lookup_mem heq))

theorem answer_setup_ok_nonneg {hashFn : String → String} {question : String}
    {s : Store} {k : String} (hs : storeNonneg s) :
    ∀ {l : List AnswerInput} {s1 : Store},
    answer_setup_loop hashFn question s k l = .ok s1 → storeNonneg s1 := by
  intro l
  induction l with
  | nil => intro s1 h; cases h
  | cons i rest ih =>
    intro s1 h
    cases i with
    | back => cases h
    | attempt ans confirm =>
      revert h
      simp only [answer_setup_loop]
      split
      · intro h; exact ih h
      · split
        · intro h; exact ih h
        · split
          · intro h; cases h
          · next a heq =>
            intro h; cases h
            exact setAccount_nonneg hs (hs _ (lookup_mem heq))

theorem sec_setup_nonneg {hashFn : String → String} {now : ℤ} {saveOk : Bool}
    {s : Store} {k : String} {pwIn : List PwInput} {qIn : List QuestionInput}
    {ansIn : List AnswerInput} (hs : storeNonneg s) :
    storeNonneg (set_password_and_security hashFn now saveOk s k pwIn qIn ansIn).store := by
  unfold set_password_and_security
  cases hp : password_setup_loop hashFn s k pwIn with
  | cancelled => simpa [SecSetupResult.store] using hs
  | noInput => simpa [SecSetupResult.store] using hs
  | keyError => simpa [SecSetupResult.store] using hs
  | ok s1 =>
    have n1 := password_setup_ok_nonneg hs hp
    cases hq : question_choice_loop qIn with
    | cancelled => simpa [SecSetupResult.store] using n1
    | noInput => simpa [SecSetupResult.store] using n1
    | question q =>
      cases ha : answer_setup_loop hashFn q s1 k ansIn with
      | cancelled => simpa [SecSetupResult.store, ha] using n1
      | noInput => simpa [SecSetupResult.store, ha] using n1
      | keyError => simpa [SecSetupResult.store, ha] using n1
      | ok s2 =>
        have n2 := answer_setup_ok_nonneg n1 ha
        cases hl : s2.lookup k with
        | none => simpa [SecSetupResult.store, ha, hl] using n2
        | some a =>
          have hm := setAccount_nonneg n2 (n2 _ (lookup_mem hl)) (k := k)
            (a := { a with last_modified := some now })
          cases saveOk with
          | true => simpa [SecSetupResult.store, ha, hl] using hm
          | false => simpa [SecSetupResult.store, ha, hl] using hm

theorem matchDigitsThenEnd_iff : ∀ (n : ℕ) (cs : List Char),
    matchDigitsThenEnd n cs = true ↔
      ((cs.length = n ∧ cs.all pyDigit = true) ∨
       (∃ ds, cs = ds ++ ['\n'] ∧ ds.length = n ∧ ds.all pyDigit = true)) := by
  intro n
  induction n with
  | zero =>
    intro cs
    match cs with
    | [] => simp [matchDigitsThenEnd]
    | [c] =>
      constructor
      · intro h
        have hc : c = '\n' := by simpa [matchDigitsThenEnd] using h
        exact Or.inr ⟨[], by rw [hc]; rfl, rfl, rfl⟩
      · rintro (⟨hlen, _⟩ | ⟨ds, hds, hlen, _⟩)
        · simp at hlen
        · obtain rfl : ds = [] := List.length_eq_zero.1 hlen
          simp at hds
          subst hds
          simp [matchDigitsThenEnd]
    | c1 :: c2 :: t =>
      constructor
      · intro h; simp [matchDigitsThenEnd] at h
      · rintro (⟨hlen, _⟩ | ⟨ds, hds, hlen, _⟩)
        · simp at hlen
        · obtain rfl : ds = [] := List.length_eq_zero.1 hlen
          simp at hds
  | succ n ih =>
    intro cs
    match cs with
    | [] =>
      simp only [matchDigitsThenEnd]
      constructor
      · intro h; cases h
      · rintro (⟨hlen, _⟩ | ⟨ds, hds, _, _⟩)
        · simp at hlen
        · simp at hds
    | c :: rest =>
      rw [show matchDigitsThenEnd (n + 1) (c :: rest) =
            (pyDigit c && matchDigitsThenEnd n rest) from rfl]
      rw [Bool.and_eq_true, ih rest]
      constructor
      · rintro ⟨hc, (⟨hlen, hall⟩ | ⟨ds, hds, hlen, hall⟩)⟩
        · exact Or.inl ⟨by simp [hlen], by simp [hc, List.all_eq_true] at hall ⊢; exact hall⟩
        · refine Or.inr ⟨c :: ds, by simp [hds], by simp [hlen], ?_⟩
          simp [hc, List.all_eq_true] at hall ⊢
          exact hall
      · rintro (⟨hlen, hall⟩ | ⟨ds, hds, hlen, hall⟩)
        · simp only [List.length_cons, Nat.succ.injEq] at hlen
          simp only [List.all_cons, Bool.and_eq_true] at hall
          exact ⟨hall.1, Or.inl ⟨hlen, hall.2⟩⟩
        · cases ds with
          | nil => simp at hlen
          | cons d ds1 =>
            simp only [List.cons_append, List.cons.injEq] at hds
            obtain ⟨rfl, hrest⟩ := hds
            simp only [List.length_cons, Nat.succ.injEq] at hlen
            simp only [List.all_cons, Bool.and_eq_true] at hall
            exact ⟨hall.1, Or.inr ⟨ds1, hrest, hlen, hall.2⟩⟩

/-! ## Claim theorems -/

/-- C8 (counterexample): the claim says `validate_phone` is true only
for 11-character strings of digits of the phone shape, but — like
Python's `re.match` — the embedded matcher accepts the 12-character
string `"13800001234\n"` (`$` also matches just before a final
newline) and the string `"13４４４４４４４４４"` whose last nine
characters are fullwidth digits (`\d` matches any Unicode decimal
digit), neither of which is of that shape. -/
theorem c8_validate_phone_counterexample :
    (validate_phone "13800001234\n" = true ∧
      spec_phone_shape "13800001234\n" = false) ∧
    (validate_phone "13４４４４４４４４４" = true ∧
      spec_phone_shape "13４４４４４４４４４" = false) := by
  decide

/-- C8 (amended): `validate_phone s` is true iff `s` is `'1'`, a
character in the ASCII class `[3-9]`, then nine Unicode decimal (Nd)
digits, optionally followed by exactly one trailing newline (Python's
`$` matches just before a string-final `'\n'`). -/
theorem c8_validate_phone_characterization (s : String) :
    validate_phone s = true ↔
      (py_phone_shape s = true ∨
       ∃ cs : List Char, s.toList = cs ++ ['\n'] ∧
         py_phone_shape (String.mk cs) = true) := by
  have hmk : ∀ cs : List Char, (String.mk cs).toList = cs := fun _ => rfl
  unfold validate_phone py_phone_shape
  cases hs : s.toList with
  | nil =>
    simp only []
    constructor
    · intro h; cases h
    · rintro (h | ⟨cs, hcs, _⟩)
      · cases h
      · simp at hcs
  | cons c1 t1 =>
    cases t1 with
    | nil =>
      simp only []
      constructor
      · intro h; cases h
      · rintro (h | ⟨cs, hcs, hshape⟩)
        · cases h
        · match cs, hcs with
          | [], hcs => simp [hmk] at hshape
          | [x], hcs => simp at hcs
          | x :: y :: t, hcs => simp at hcs
    | cons c2 rest =>
      simp only [Bool.and_eq_true, beq_iff_eq, decide_eq_true_eq]
      rw [matchDigitsThenEnd_iff]
      constructor
      · rintro ⟨⟨⟨h1, h3⟩, h9⟩, (⟨hlen, hall⟩ | ⟨ds, hds, hlen, hall⟩)⟩
        · exact Or.inl ⟨⟨⟨⟨h1, h3⟩, h9⟩, by simp [hlen]⟩, hall⟩
        · refine Or.inr ⟨c1 :: c2 :: ds, by simp [hds], ?_⟩
          simp only [hmk, Bool.and_eq_true, beq_iff_eq, decide_eq_true_eq]
          exact ⟨⟨⟨⟨h1, h3⟩, h9⟩, by simp [hlen]⟩, hall⟩
      · rintro (⟨⟨⟨⟨h1, h3⟩, h9⟩, hlen⟩, hall⟩ | ⟨cs, hcs, hshape⟩)
        · exact ⟨⟨⟨h1, h3⟩, h9⟩, Or.inl ⟨by simpa using hlen, hall⟩⟩
        · match cs, hcs with
          | [], hcs => simp at hcs
          | [x], hcs =>
            simp at hcs
            simp [hmk] at hshape
          | x :: y :: t, hcs =>
            simp only [List.cons_append, List.cons.injEq] at hcs
            obtain ⟨rfl, rfl, hrest⟩ := hcs
            simp only [hmk, Bool.and_eq_true, beq_iff_eq, decide_eq_true_eq] at hshape
            obtain ⟨⟨⟨⟨h1, h3⟩, h9⟩, hlen⟩, hall⟩ := hshape
            exact ⟨⟨⟨h1, h3⟩, h9⟩, Or.inr ⟨t, hrest, by simpa using hlen, hall⟩⟩

theorem mem_lookup_nodup : ∀ {store : Store} {k : String} {v : Account},
    keysNodup store → (k, v) ∈ store → store.lookup k = some v := by
  intro store
  induction store with
  | nil => intro k v _ h; cases h
  | cons p rest ih =>
    intro k v hnd hm
    obtain ⟨k1, v1⟩ := p
    have hnotin : k1 ∉ rest.map Prod.fst := by
      unfold keysNodup at hnd
      simp only [List.map_cons, List.nodup_cons] at hnd
      exact hnd.1
    have hnd1 : keysNodup rest := by
      unfold keysNodup at hnd
      simp only [List.map_cons, List.nodup_cons] at hnd
      exact hnd.2
    rcases List.mem_cons.1 hm with heq | hmem
    · cases heq
      rw [List.lookup]
      simp
    · have hne : k ≠ k1 := by
        intro he
        subst he
        exact hnotin (List.mem_map_of_mem Prod.fst hmem)
      rw [List.lookup]
      have hb : (k == k1) = false := by simp [hne]
      rw [hb]
      exact ih hnd1 hmem

theorem find_account_lookup {store : Store} {ident phone : String} {a : Account}
    (hnd : keysNodup store) (h : find_account store ident = .found phone a) :
    store.lookup phone = some a := by
  unfold find_account at h
  split at h
  · cases hl : store.lookup ident with
    | none => rw [hl] at h; cases h
    | some v => rw [hl] at h; cases h; exact hl
  · split at h
    · cases hf : store.find? (fun p => p.2.last_four == ident) with
      | none => rw [hf] at h; cases h
      | some p =>
        rw [hf] at h
        cases h
        exact mem_lookup_nodup hnd (List.mem_of_find?_eq_some hf)
    · cases h

/-- C2 (counterexample): after a recharge whose save fails, the claim
says the account is restored exactly; the code restores only `balance`
and leaves `last_modified` at the new timestamp, so the account differs
from its pre-operation value. -/
theorem c2_persist_revert_counterexample :
    recharge_step 100 false sampleAccount (AmountInput.num 5) =
      .saveFailed { sampleAccount with last_modified := some 100 } ∧
    { sampleAccount with last_modified := some 100 } ≠ sampleAccount := by
  constructor
  · decide
  · decide

/-- C2 (amended): when the save fails, any accepted recharge (every
positive amount, also ones larger than the current balance) and any
accepted deduct (a positive amount covered by the balance, which is
what its guard admits) report failure and revert the balance to its
pre-operation value, but `last_modified` keeps the new timestamp. -/
theorem c2_persist_failure_reverts_balance (now : ℤ) (a : Account) (q : ℚ)
    (hq : 0 < q) :
    recharge_step now false a (.num q) =
      .saveFailed { a with last_modified := some now } ∧
    (q ≤ a.balance →
      deduct_step now false a (.num q) =
        .saveFailed { a with last_modified := some now }) ∧
    ({ a with last_modified := some now }).balance = a.balance := by
  have h0 : ¬ q ≤ 0 := by linarith
  refine ⟨?_, ?_, rfl⟩
  · simp [recharge_step, h0]
  · intro hle
    have h1 : ¬ a.balance < q := not_lt.2 hle
    simp [deduct_step, h0, h1]

theorem c2_persist_failure_reverts_balance_witness :
    recharge_step 100 false sampleAccount (.num 100) =
      .saveFailed { sampleAccount with last_modified := some 100 } ∧
    deduct_step 100 false sampleAccount (.num 5) =
      .saveFailed { sampleAccount with last_modified := some 100 } :=
  ⟨(c2_persist_failure_reverts_balance 100 sampleAccount 100 (by norm_num)).1,
   (c2_persist_failure_reverts_balance 100 sampleAccount 5 (by norm_num)).2.1
     (by decide)⟩

/-- C3 (counterexample): the claim's final clause says an amount
exactly equal to the balance is accepted; with balance `0` the equal
amount `0` is rejected by the `amount <= 0` guard instead of being
accepted. -/
theorem c3_deduct_equal_amount_counterexample :
    sampleZeroAccount.balance = 0 ∧
    deduct_step 7 true sampleZeroAccount (AmountInput.num 0) = .nonPositive := by
  constructor
  · rfl
  · decide

/-- C3 (amended): for a non-negatively funded account, any amount
strictly greater than the balance is rejected as insufficient, the
attempt leaves the account untouched and performs no save (the loop
continues on the remaining inputs with the same account, and a full
deduct call whose only amount input is such an amount ends with the
store unchanged and zero saves); an amount exactly equal to a
*positive* balance is accepted. -/
theorem c3_deduct_insufficient_rejected (now : ℤ) (saveOk : Bool) (a : Account)
    (q : ℚ) (h0 : 0 ≤ a.balance) (hlt : a.balance < q) :
    deduct_step now saveOk a (.num q) = .insufficient ∧
    (∀ rest, deduct_amount_loop now saveOk a (AmountInput.num q :: rest) =
      deduct_amount_loop now saveOk a rest) ∧
    (0 < a.balance → deduct_step now true a (.num a.balance) =
      .success { a with balance := 0, last_modified := some now }) ∧
    (∀ (hashFn : String → String) (store : Store) (ident : String)
        (authInputs : List AuthInput) (phone : String) (e : ℤ) (pwd : String),
      keysNodup store → find_account store ident = .found phone a →
      a.status = "正常" → a.expiry_time = some e → is_expired now e = false →
      verify_password hashFn pwd a.password = true →
      deduct hashFn now saveOk store ident (AuthInput.entry pwd :: authInputs)
        [AmountInput.num q] = (.noInput, store, 0)) := by
  have hq : ¬ q ≤ 0 := by linarith
  refine ⟨?_, ?_, ?_, ?_⟩
  · simp [deduct_step, hq, hlt]
  · intro rest
    rw [deduct_amount_loop]
    simp [deduct_step, hq, hlt]
  · intro hpos
    have hz : a.balance - a.balance = 0 := sub_self _
    simp [deduct_step, not_le.2 hpos, hz]
  · intro hashFn store ident authInputs phone e pwd hnd hfind hst he2 hne hpwd
    have hlk := find_account_lookup hnd hfind
    have hself := setAccount_self hnd hlk
    have hauth : authenticate_with_password hashFn now a
        (AuthInput.entry pwd :: authInputs) = some (.success, a, false) := by
      unfold authenticate_with_password check_account_status
      rw [hst, he2]
      simp [hne, MAX_AUTH_ATTEMPTS, auth_loop, hpwd]
    unfold deduct
    rw [hfind]
    simp only []
    rw [hauth]
    simp only []
    rw [deduct_amount_loop]
    simp [deduct_step, hq, hlt, deduct_amount_loop, hself]

theorem c3_deduct_insufficient_rejected_witness :
    deduct_step 7 true sampleAccount (AmountInput.num 100) = .insufficient ∧
    deduct_step 7 true sampleAccount (.num sampleAccount.balance) =
      .success { sampleAccount with balance := 0, last_modified := some 7 } :=
  ⟨(c3_deduct_insufficient_rejected 7 true sampleAccount 100 (by decide) (by decide)).1,
   (c3_deduct_insufficient_rejected 7 true sampleAccount 100 (by decide)
      (by decide)).2.2.1 (by decide)⟩

attribute [local semireducible] Rat.add Rat.sub Rat.mul in
/-- The binary64 model agrees with CPython at the values of the C6
counterexample: these are exactly `Fraction(0.1)`, `Fraction(0.2)`,
`Fraction(0.1 + 0.2)` and `Fraction((0.1 + 0.2) - 0.2)` as Python
reports them. -/
theorem roundDouble_agrees_with_python :
    roundDouble (mkRat 1 10) = mkRat 3602879701896397 36028797018963968 ∧
    roundDouble (mkRat 2 10) = mkRat 3602879701896397 18014398509481984 ∧
    fl_add (roundDouble (mkRat 1 10)) (roundDouble (mkRat 2 10)) =
      mkRat 1351079888211149 4503599627370496 ∧
    fl_sub (fl_add (roundDouble (mkRat 1 10)) (roundDouble (mkRat 2 10)))
      (roundDouble (mkRat 2 10)) = mkRat 1801439850948199 18014398509481984 := by
  refine ⟨by decide, by decide, by decide, by decide⟩

attribute [local semireducible] Rat.add Rat.sub Rat.mul in
/-- C6 (counterexample): under the source's binary-float arithmetic the
round trip is not exact — on a stored balance of `0.1` (the double
nearest one tenth), a successful recharge of `0.2` followed by a
successful deduct of `0.2` ends at `0.10000000000000003`, not at the
original balance. -/
theorem c6_float_round_trip_counterexample :
    recharge_step_fl 1 true sampleTenthAccount
        (AmountInput.num (roundDouble (mkRat 2 10))) =
      .success { sampleTenthAccount with
                   balance := fl_add (roundDouble (mkRat 1 10)) (roundDouble (mkRat 2 10))
                   last_modified := some 1 } ∧
    deduct_step_fl 2 true
        { sampleTenthAccount with
            balance := fl_add (roundDouble (mkRat 1 10)) (roundDouble (mkRat 2 10))
            last_modified := some 1 } (AmountInput.num (roundDouble (mkRat 2 10))) =
      .success { sampleTenthAccount with
                   balance := fl_sub (fl_add (roundDouble (mkRat 1 10))
                     (roundDouble (mkRat 2 10))) (roundDouble (mkRat 2 10))
                   last_modified := some 2 } ∧
    fl_sub (fl_add (roundDouble (mkRat 1 10)) (roundDouble (mkRat 2 10)))
        (roundDouble (mkRat 2 10)) ≠ roundDouble (mkRat 1 10) := by
  refine ⟨by decide, by decide, by decide⟩

/-- C6 (amended): a successful recharge of a positive amount followed
by a successful deduct of the same amount restores the balance exactly
whenever the float addition `balance + amount` incurs no rounding (the
stored balance being a binary64 value); in general the result can be
off by one unit in the last place, as in the counterexample. -/
theorem c6_float_round_trip (now1 now2 : ℤ) (a : Account) (q : ℚ)
    (h0 : 0 ≤ a.balance) (hq : 0 < q)
    (hb : roundDouble a.balance = a.balance)
    (hsum : fl_add a.balance q = a.balance + q) :
    ∃ a1 a2, recharge_step_fl now1 true a (AmountInput.num q) = .success a1 ∧
      deduct_step_fl now2 true a1 (AmountInput.num q) = .success a2 ∧
      a2.balance = a.balance := by
  have hn : ¬ q ≤ 0 := by linarith
  refine ⟨{ a with balance := fl_add a.balance q, last_modified := some now1 },
    ?_, ?_, ?_, ?_⟩
  · exact { a with balance := fl_sub (fl_add a.balance q) q, last_modified := some now2 }
  · simp [recharge_step_fl, hn]
  · have hins : ¬ fl_add a.balance q < q := by
      rw [hsum]
      intro hc
      linarith
    simp [deduct_step_fl, hn, hins]
  · simp only []
    rw [hsum]
    show roundDouble (a.balance + q - q) = a.balance
    have he : a.balance + q - q = a.balance := by ring
    rw [he, hb]

attribute [local semireducible] Rat.add Rat.sub Rat.mul in
theorem c6_float_round_trip_witness :
    ∃ a1 a2, recharge_step_fl 10 true sampleAccount (AmountInput.num (mkRat 51 2)) =
        .success a1 ∧
      deduct_step_fl 20 true a1 (AmountInput.num (mkRat 51 2)) = .success a2 ∧
      a2.balance = sampleAccount.balance :=
  c6_float_round_trip 10 20 sampleAccount (mkRat 51 2) (by decide) (by decide)
    (by decide) (by decide)

/-- C5: for both `authenticate_with_password` (on an active,
non-expired account) and `authenticate_with_security_question`, three
wrong credentials end the operation with the attempt-exhausted result —
independently of any further queued input, so a 4th attempt is never
offered — while a correct credential on the 1st, 2nd or 3rd attempt
succeeds. -/
theorem c5_auth_three_attempts (hashFn : String → String) (now : ℤ) (a : Account)
    (e : ℤ) (hst : a.status = "正常") (he : a.expiry_time = some e)
    (hne : is_expired now e = false) (w1 w2 w3 c x1 x2 x3 d : String)
    (hw1 : verify_password hashFn w1 a.password = false)
    (hw2 : verify_password hashFn w2 a.password = false)
    (hw3 : verify_password hashFn w3 a.password = false)
    (hc : verify_password hashFn c a.password = true)
    (hx1 : verify_answer hashFn x1 a.security_answer = false)
    (hx2 : verify_answer hashFn x2 a.security_answer = false)
    (hx3 : verify_answer hashFn x3 a.security_answer = false)
    (hd : verify_answer hashFn d a.security_answer = true) :
    (∀ rest, authenticate_with_password hashFn now a
        (.entry w1 :: .entry w2 :: .entry w3 :: rest) = some (.tooMany, a, false)) ∧
    (∀ rest, authenticate_with_password hashFn now a (.entry c :: rest) =
        some (.success, a, false)) ∧
    (∀ rest, authenticate_with_password hashFn now a (.entry w1 :: .entry c :: rest) =
        some (.success, a, false)) ∧
    (∀ rest, authenticate_with_password hashFn now a
        (.entry w1 :: .entry w2 :: .entry c :: rest) = some (.success, a, false)) ∧
    (∀ rest, authenticate_with_security_question hashFn a
        (.entry x1 :: .entry x2 :: .entry x3 :: rest) = .tooMany) ∧
    (∀ rest, authenticate_with_security_question hashFn a (.entry d :: rest) = .success) ∧
    (∀ rest, authenticate_with_security_question hashFn a
        (.entry x1 :: .entry d :: rest) = .success) ∧
    (∀ rest, authenticate_with_security_question hashFn a
        (.entry x1 :: .entry x2 :: .entry d :: rest) = .success) := by
  have hchk : check_account_status now a = some (true, a, false) := by
    unfold check_account_status
    rw [hst, he]
    simp [hne]
  refine ⟨?_, ?_, ?_, ?_, ?_, ?_, ?_, ?_⟩ <;> intro rest <;>
    simp [authenticate_with_password, authenticate_with_security_question, hchk,
      MAX_AUTH_ATTEMPTS, auth_loop, hw1, hw2, hw3, hc, hx1, hx2, hx3, hd]

theorem c5_auth_three_attempts_witness :
    authenticate_with_password id 0 sampleAccount
      [.entry "0000", .entry "0001", .entry "0002"] =
        some (.tooMany, sampleAccount, false) ∧
    authenticate_with_security_question id sampleAccount
      [.entry "aaaa", .entry "bbbb", .entry "blue"] = .success :=
  ⟨(c5_auth_three_attempts id 0 sampleAccount 2592000 (by decide) (by decide)
      (by decide) "0000" "0001" "0002" "1111" "aaaa" "bbbb" "cccc" "blue"
      (by decide) (by decide) (by decide) (by decide)
      (by decide) (by decide) (by decide) (by decide)).1 [],
   (c5_auth_three_attempts id 0 sampleAccount 2592000 (by decide) (by decide)
      (by decide) "0000" "0001" "0002" "1111" "aaaa" "bbbb" "cccc" "blue"
      (by decide) (by decide) (by decide) (by decide)
      (by decide) (by decide) (by decide) (by decide)).2.2.2.2.2.2.2 []⟩

/-- C7: `check_expired_accounts` is a pure scan — calling it twice at
the same instant produces the same per-account classification and the
same expired/expiring counters both times, and neither call changes
the store (in particular no balance and no registration bonus). -/
theorem c7_check_expiring_idempotent_frame (now : ℤ) (store : Store) :
    (check_expired_accounts now store).2.2.2 = store ∧
    (check_expired_accounts now ((check_expired_accounts now store).2.2.2)).1 =
      (check_expired_accounts now store).1 ∧
    (check_expired_accounts now ((check_expired_accounts now store).2.2.2)).2.1 =
      (check_expired_accounts now store).2.1 ∧
    (check_expired_accounts now ((check_expired_accounts now store).2.2.2)).2.2.1 =
      (check_expired_accounts now store).2.2.1 ∧
    (check_expired_accounts now ((check_expired_accounts now store).2.2.2)).2.2.2 =
      store := by
  exact ⟨rfl, rfl, rfl, rfl, rfl⟩

theorem reset_pw_loop_status {hashFn : String → String} {now : ℤ} {saveOk : Bool}
    {a : Account} :
    ∀ {l : List PwInput} {a2 : Account},
    reset_pw_loop hashFn now saveOk a l = .success a2 ∨
      reset_pw_loop hashFn now saveOk a l = .saveFailed a2 → a2.status = a.status := by
  intro l
  induction l with
  | nil => intro a2 h; rcases h with h | h <;> cases h
  | cons i rest ih =>
    intro a2 h
    cases i with
    | back => rcases h with h | h <;> cases h
    | attempt pw confirm =>
      rcases h with h | h
      · revert h
        simp only [reset_pw_loop]
        split
        · intro h; exact ih (Or.inl h)
        · split
          · intro h; exact ih (Or.inl h)
          · split
            · intro h; cases h; rfl
            · intro h; cases h
      · revert h
        simp only [reset_pw_loop]
        split
        · intro h; exact ih (Or.inr h)
        · split
          · intro h; exact ih (Or.inr h)
          · split
            · intro h; cases h
            · intro h; cases h; rfl

/-- C9: on an account whose stored status is active (`"正常"`) but
whose expiry is past, password authentication fails with the expired
result, marks the account `"已过期"` and issues a save — for any queued
credential inputs; when the clock has not passed, the status check
leaves the account untouched.  The `active → expired` transition comes
only from this clock comparison: the balance-mutation steps and the
password-reset loop never change `status`. -/
theorem c9_lazy_expiry_transition (hashFn : String → String) (now : ℤ) (a : Account)
    (e : ℤ) (hst : a.status = "正常") (he : a.expiry_time = some e) :
    (is_expired now e = true →
      ∀ inputs, authenticate_with_password hashFn now a inputs =
        some (.expiredFail, { a with status := "已过期" }, true)) ∧
    (is_expired now e = false → check_account_status now a = some (true, a, false)) ∧
    (∀ saveOk i a2, recharge_step now saveOk a i = .success a2 ∨
        recharge_step now saveOk a i = .saveFailed a2 → a2.status = a.status) ∧
    (∀ saveOk i a2, deduct_step now saveOk a i = .success a2 ∨
        deduct_step now saveOk a i = .saveFailed a2 → a2.status = a.status) ∧
    (∀ saveOk pwIn a2, reset_pw_loop hashFn now saveOk a pwIn = .success a2 ∨
        reset_pw_loop hashFn now saveOk a pwIn = .saveFailed a2 →
        a2.status = a.status) := by
  refine ⟨?_, ?_, ?_, ?_, ?_⟩
  · intro hexp inputs
    have hchk : check_account_status now a =
        some (false, { a with status := "已过期" }, true) := by
      unfold check_account_status
      rw [hst, he]
      simp [hexp]
    unfold authenticate_with_password
    rw [hchk]
    simp
  · intro hne
    unfold check_account_status
    rw [hst, he]
    simp [hne]
  · intro saveOk i a2 h
    rcases h with h | h
    · cases i with
      | back => cases h
      | notNum => cases h
      | num q =>
        revert h
        simp only [recharge_step]
        split
        · intro h; cases h
        · split
          · intro h; cases h; rfl
          · intro h; cases h
    · cases i with
      | back => cases h
      | notNum => cases h
      | num q =>
        revert h
        simp only [recharge_step]
        split
        · intro h; cases h
        · split
          · intro h; cases h
          · intro h; cases h; rfl
  · intro saveOk i a2 h
    rcases h with h | h
    · cases i with
      | back => cases h
      | notNum => cases h
      | num q =>
        revert h
        simp only [deduct_step]
        split
        · intro h; cases h
        · split
          · intro h; cases h
          · split
            · intro h; cases h; rfl
            · intro h; cases h
    · cases i with
      | back => cases h
      | notNum => cases h
      | num q =>
        revert h
        simp only [deduct_step]
        split
        · intro h; cases h
        · split
          · intro h; cases h
          · split
            · intro h; cases h
            · intro h; cases h; rfl
  · intro saveOk pwIn a2 h
    exact reset_pw_loop_status h

theorem c9_lazy_expiry_transition_witness :
    authenticate_with_password id 10 sampleExpiredAccount [] =
      some (.expiredFail, { sampleExpiredAccount with status := "已过期" }, true) :=
  (c9_lazy_expiry_transition id 10 sampleExpiredAccount 5 (by decide) (by decide)).1
    (by decide) []

/-- C10: security-question authentication performs no status/expiry
check, so on an account whose expiry is past — whether its stored
status is active or already expired — `reset_password` still succeeds
given the correct security answer and a valid 4-digit PIN, writing the
new password hash; on the same account password authentication never
succeeds, so a recharge or deduct fails with the expired error. -/
theorem c10_expired_reset_allowed (hashFn : String → String) (now : ℤ) (saveOk : Bool)
    (a : Account) (e : ℤ) (he : a.expiry_time = some e)
    (hexp : is_expired now e = true) (ans pin : String)
    (hans : verify_answer hashFn ans a.security_answer = true)
    (hpin : validate_password pin = true) :
    (∀ restAuth restPw,
      reset_password hashFn now true a (.entry ans :: restAuth)
        (.attempt pin pin :: restPw) =
        .success { a with password := some (hash_password hashFn pin),
                          last_modified := some now }) ∧
    (a.status = "正常" ∨ a.status = "已过期" →
      ∀ inputs o a1 sv,
        authenticate_with_password hashFn now a inputs = some (o, a1, sv) →
        o ≠ .success) ∧
    (a.status = "正常" ∨ a.status = "已过期" →
      ∀ (store : Store) (ident : String) (authIn : List AuthInput)
        (amtIn : List AmountInput) (phone : String),
        find_account store ident = .found phone a →
        (recharge hashFn now saveOk store ident authIn amtIn).1 =
            .authFailed .expiredFail ∧
        (deduct hashFn now saveOk store ident authIn amtIn).1 =
            .authFailed .expiredFail) := by
  have hauth : ∀ inputs, (a.status = "正常" ∨ a.status = "已过期") →
      ∃ a1 sv, authenticate_with_password hashFn now a inputs =
        some (.expiredFail, a1, sv) := by
    intro inputs hstat
    rcases hstat with hs | hs
    · refine ⟨{ a with status := "已过期" }, true, ?_⟩
      have hchk : check_account_status now a =
          some (false, { a with status := "已过期" }, true) := by
        unfold check_account_status
        rw [hs, he]
        simp [hexp]
      unfold authenticate_with_password
      rw [hchk]
      simp
    · refine ⟨a, false, ?_⟩
      have hchk : check_account_status now a = some (false, a, false) := by
        unfold check_account_status
        simp [hs]
      unfold authenticate_with_password
      rw [hchk]
      simp
  refine ⟨?_, ?_, ?_⟩
  · intro restAuth restPw
    unfold reset_password authenticate_with_security_question
    have hl : auth_loop (fun s => verify_answer hashFn s a.security_answer)
        MAX_AUTH_ATTEMPTS (.entry ans :: restAuth) = .success := by
      simp [MAX_AUTH_ATTEMPTS, auth_loop, hans]
    rw [hl]
    simp only [reset_pw_loop, hpin]
    simp
  · intro hstat inputs o a1 sv h
    obtain ⟨a2, sv2, h2⟩ := hauth inputs hstat
    rw [h2] at h
    cases h
    simp
  · intro hstat store ident authIn amtIn phone hfind
    obtain ⟨a2, sv2, h2⟩ := hauth authIn hstat
    constructor
    · unfold recharge
      rw [hfind]
      simp only []
      rw [h2]
    · unfold deduct
      rw [hfind]
      simp only []
      rw [h2]

theorem c10_expired_reset_allowed_witness :
    reset_password id 10 true sampleExpiredAccount [.entry "blue"]
      [.attempt "9999" "9999"] =
      .success
        { sampleExpiredAccount with
            password := some (hash_password id "9999")
            last_modified := some 10 } :=
  (c10_expired_reset_allowed id 10 true sampleExpiredAccount 5 (by decide) (by decide)
     "blue" "9999" (by decide) (by decide)).1 [] []

/-- C4: whenever a registration ends cancelled or with a failed save —
which covers every failure of the validity-period step or the
security-setup step after the provisional record was created — the
store is exactly the original one: the phone is absent and its four
tail digits are as free as before the attempt. -/
theorem c4_register_rollback (hashFn : String → String) (now : ℤ) (saveOk : Bool)
    (store : Store) (phone : String) (bIn : List BonusInput) (dIn : List DaysInput)
    (pIn : List PwInput) (qIn : List QuestionInput) (aIn : List AnswerInput)
    (hres : (register_phone hashFn now saveOk store phone bIn dIn pIn qIn aIn).1 =
              .cancelled ∨
            (register_phone hashFn now saveOk store phone bIn dIn pIn qIn aIn).1 =
              .saveFailed) :
    (register_phone hashFn now saveOk store phone bIn dIn pIn qIn aIn).2 = store ∧
    ((register_phone hashFn now saveOk store phone bIn dIn pIn qIn aIn).2).lookup
        phone = none ∧
    ((register_phone hashFn now saveOk store phone bIn dIn pIn qIn aIn).2).any
        (fun p => p.2.last_four == lastFour phone) = false := by
  cases hv : validate_phone phone with
  | false => simp [register_phone, hv] at hres
  | true =>
    cases hl : store.lookup phone with
    | some a0 => simp [register_phone, hv, hl] at hres
    | none =>
      cases ht : store.any (fun p => p.2.last_four == lastFour phone) with
      | true => simp [register_phone, hv, hl, ht] at hres
      | false =>
        cases hb : set_registration_bonus bIn with
        | noInput => simp [register_phone, hv, hl, ht, hb] at hres
        | cancelled =>
          have hreg : register_phone hashFn now saveOk store phone bIn dIn pIn qIn aIn =
              (.cancelled, store) := by
            simp [register_phone, hv, hl, ht, hb]
          rw [hreg]
          exact ⟨rfl, hl, ht⟩
        | amount bonus =>
          have hs1 : eraseAccount (setAccount store phone
              { balance := bonus, last_four := lastFour phone, password := none,
                security_question := none, security_answer := none,
                status := "未设置有效期", registration_bonus := bonus }) phone = store := by
            rw [erase_setAccount, erase_of_lookup_none hl]
          cases hd : set_valid_days now (setAccount store phone
              { balance := bonus, last_four := lastFour phone, password := none,
                security_question := none, security_answer := none,
                status := "未设置有效期", registration_bonus := bonus }) phone dIn with
          | noInput => simp [register_phone, hv, hl, ht, hb, hd] at hres
          | keyError => simp [register_phone, hv, hl, ht, hb, hd] at hres
          | cancelled =>
            have hreg : register_phone hashFn now saveOk store phone bIn dIn pIn qIn aIn =
                (.cancelled, eraseAccount (setAccount store phone
                  { balance := bonus, last_four := lastFour phone, password := none,
                    security_question := none, security_answer := none,
                    status := "未设置有效期", registration_bonus := bonus }) phone) := by
              simp [register_phone, hv, hl, ht, hb, hd]
            rw [hreg]
            refine ⟨hs1, ?_, ?_⟩
            · simp only [hs1]; exact hl
            · simp only [hs1]; exact ht
          | ok store2 =>
            have he2 : eraseAccount store2 phone = store := by
              rw [set_valid_days_ok_erase hd, erase_setAccount, erase_of_lookup_none hl]
            cases hsec : set_password_and_security hashFn now saveOk store2 phone
                pIn qIn aIn with
            | noInput s => simp [register_phone, hv, hl, ht, hb, hd, hsec] at hres
            | keyError s => simp [register_phone, hv, hl, ht, hb, hd, hsec] at hres
            | ok s => simp [register_phone, hv, hl, ht, hb, hd, hsec] at hres
            | cancelled s =>
              have hse : eraseAccount s phone = store := by
                have := @sec_setup_erase hashFn now saveOk store2 phone pIn qIn aIn
                rw [hsec] at this
                simp only [SecSetupResult.store] at this
                rw [this]
                exact he2
              have hreg : register_phone hashFn now saveOk store phone bIn dIn pIn qIn aIn =
                  (.cancelled, eraseAccount s phone) := by
                simp [register_phone, hv, hl, ht, hb, hd, hsec]
              rw [hreg]
              refine ⟨hse, ?_, ?_⟩
              · simp only [hse]; exact hl
              · simp only [hse]; exact ht
            | saveFailed s =>
              have hse : eraseAccount s phone = store := by
                have := @sec_setup_erase hashFn now saveOk store2 phone pIn qIn aIn
                rw [hsec] at this
                simp only [SecSetupResult.store] at this
                rw [this]
                exact he2
              have hreg : register_phone hashFn now saveOk store phone bIn dIn pIn qIn aIn =
                  (.saveFailed, eraseAccount s phone) := by
                simp [register_phone, hv, hl, ht, hb, hd, hsec]
              rw [hreg]
              refine ⟨hse, ?_, ?_⟩
              · simp only [hse]; exact hl
              · simp only [hse]; exact ht


theorem c4_register_rollback_witness :
    (register_phone id 0 true [] "13800001234" [.num 50] [.num 30]
        [PwInput.back] [] []).2 = [] ∧
    ((register_phone id 0 true [] "13800001234" [.num 50] [.num 30]
        [PwInput.back] [] []).2).lookup "13800001234" = none ∧
    ((register_phone id 0 true [] "13800001234" [.num 50] [.num 30]
        [PwInput.back] [] []).2).any
      (fun p => p.2.last_four == lastFour "13800001234") = false :=
  c4_register_rollback id 0 true [] "13800001234" [.num 50] [.num 30] [PwInput.back] [] []
    (Or.inl (by decide))

/-- C1 (counterexample): the guards do not establish the invariant for
every input `float(...)` accepts.  `float("nan")` passes the bonus
guard `bonus_amount < 0` (line 282), the amount guard
`amount_float <= 0` (lines 674/724) and the insufficiency guard
`info["balance"] < amount_float` (line 731) — every comparison with
nan is false — so registration stores it as the starting balance and
recharge/deduct drive the balance to nan, which is not `≥ 0`. -/
theorem c1_nan_guard_counterexample :
    registration_starting_balance .nan = some .nan ∧
    recharge_result (.num 50) .nan = some .nan ∧
    deduct_result (.num 50) .nan = some .nan ∧
    pyNonneg .nan = false := by
  refine ⟨by decide, by decide, by decide, by decide⟩

/-- C1 (amended): for every numeric amount — every parse of the prompt
input except `"nan"`, whose guard bypass the counterexample records —
the non-negative-balance store invariant is preserved by every
balance-touching operation: a full registration pass (the bonus step
only returns numeric amounts `≥ 0`), a full recharge pass and a full
deduct pass, whatever their inputs and outcome. -/
theorem c1_balance_nonneg_invariant (hashFn : String → String) (now : ℤ) (saveOk : Bool)
    (store : Store) (h : storeNonneg store) :
    (∀ (phone : String) (bIn : List BonusInput) (dIn : List DaysInput)
        (pIn : List PwInput) (qIn : List QuestionInput) (aIn : List AnswerInput),
      storeNonneg (register_phone hashFn now saveOk store phone bIn dIn pIn qIn aIn).2) ∧
    (∀ (ident : String) (authIn : List AuthInput) (amtIn : List AmountInput),
      storeNonneg (recharge hashFn now saveOk store ident authIn amtIn).2.1) ∧
    (∀ (ident : String) (authIn : List AuthInput) (amtIn : List AmountInput),
      storeNonneg (deduct hashFn now saveOk store ident authIn amtIn).2.1) := by
  refine ⟨?_, ?_, ?_⟩
  · intro phone bIn dIn pIn qIn aIn
    cases hv : validate_phone phone with
    | false => simpa [register_phone, hv] using h
    | true =>
      cases hl : store.lookup phone with
      | some a0 => simpa [register_phone, hv, hl] using h
      | none =>
        cases ht : store.any (fun p => p.2.last_four == lastFour phone) with
        | true => simpa [register_phone, hv, hl, ht] using h
        | false =>
          cases hb : set_registration_bonus bIn with
          | noInput => simpa [register_phone, hv, hl, ht, hb] using h
          | cancelled => simpa [register_phone, hv, hl, ht, hb] using h
          | amount bonus =>
            have hbn : (0:ℚ) ≤ bonus := set_registration_bonus_nonneg hb
            have hn1 : storeNonneg (setAccount store phone
                { balance := bonus, last_four := lastFour phone, password := none,
                  security_question := none, security_answer := none,
                  status := "未设置有效期", registration_bonus := bonus }) :=
              setAccount_nonneg h hbn
            cases hd : set_valid_days now (setAccount store phone
                { balance := bonus, last_four := lastFour phone, password := none,
                  security_question := none, security_answer := none,
                  status := "未设置有效期", registration_bonus := bonus }) phone dIn with
            | noInput => simpa [register_phone, hv, hl, ht, hb, hd] using hn1
            | keyError => simpa [register_phone, hv, hl, ht, hb, hd] using hn1
            | cancelled =>
              simpa [register_phone, hv, hl, ht, hb, hd] using erase_nonneg hn1
            | ok store2 =>
              have hn2 : storeNonneg store2 := set_valid_days_ok_nonneg hn1 hd
              have hn3 := @sec_setup_nonneg hashFn now saveOk store2 phone pIn qIn aIn hn2
              cases hsec : set_password_and_security hashFn now saveOk store2 phone
                  pIn qIn aIn with
              | cancelled s =>
                rw [hsec] at hn3
                simp only [SecSetupResult.store] at hn3
                simpa [register_phone, hv, hl, ht, hb, hd, hsec] using erase_nonneg hn3
              | noInput s =>
                rw [hsec] at hn3
                simp only [SecSetupResult.store] at hn3
                simpa [register_phone, hv, hl, ht, hb, hd, hsec] using hn3
              | keyError s =>
                rw [hsec] at hn3
                simp only [SecSetupResult.store] at hn3
                simpa [register_phone, hv, hl, ht, hb, hd, hsec] using hn3
              | saveFailed s =>
                rw [hsec] at hn3
                simp only [SecSetupResult.store] at hn3
                simpa [register_phone, hv, hl, ht, hb, hd, hsec] using erase_nonneg hn3
              | ok s =>
                rw [hsec] at hn3
                simp only [SecSetupResult.store] at hn3
                simpa [register_phone, hv, hl, ht, hb, hd, hsec] using hn3
  · intro ident authIn amtIn
    cases hf : find_account store ident with
    | invalidTail => simpa [recharge, hf] using h
    | notFound => simpa [recharge, hf] using h
    | found phone a =>
      have ha : (0:ℚ) ≤ a.balance := h _ (find_account_mem hf)
      cases hau : authenticate_with_password hashFn now a authIn with
      | none => simpa [recharge, hf, hau] using h
      | some t =>
        obtain ⟨o, a1, saved⟩ := t
        have ha1 : (0:ℚ) ≤ a1.balance := by
          rw [(auth_pw_balance hau).1]
          exact ha
        have hn1 : storeNonneg (setAccount store phone a1) := setAccount_nonneg h ha1
        cases o with
        | success =>
          cases hloop : recharge_amount_loop now saveOk a1 amtIn with
          | cancelled => simpa [recharge, hf, hau, hloop] using hn1
          | noInput => simpa [recharge, hf, hau, hloop] using hn1
          | success a2 =>
            obtain ⟨q, hq, ha2⟩ := recharge_loop_success hloop
            have ha2n : (0:ℚ) ≤ a2.balance := by
              rw [ha2]
              simp only []
              linarith
            simpa [recharge, hf, hau, hloop] using setAccount_nonneg hn1 ha2n
          | saveFailed a2 =>
            have ha2 := recharge_loop_saveFailed hloop
            have ha2n : (0:ℚ) ≤ a2.balance := by
              rw [ha2]
              exact ha1
            simpa [recharge, hf, hau, hloop] using setAccount_nonneg hn1 ha2n
        | cancelled => simpa [recharge, hf, hau] using hn1
        | tooMany => simpa [recharge, hf, hau] using hn1
        | failed => simpa [recharge, hf, hau] using hn1
        | noInput => simpa [recharge, hf, hau] using hn1
        | expiredFail => simpa [recharge, hf, hau] using hn1
  · intro ident authIn amtIn
    cases hf : find_account store ident with
    | invalidTail => simpa [deduct, hf] using h
    | notFound => simpa [deduct, hf] using h
    | found phone a =>
      have ha : (0:ℚ) ≤ a.balance := h _ (find_account_mem hf)
      cases hau : authenticate_with_password hashFn now a authIn with
      | none => simpa [deduct, hf, hau] using h
      | some t =>
        obtain ⟨o, a1, saved⟩ := t
        have ha1 : (0:ℚ) ≤ a1.balance := by
          rw [(auth_pw_balance hau).1]
          exact ha
        have hn1 : storeNonneg (setAccount store phone a1) := setAccount_nonneg h ha1
        cases o with
        | success =>
          cases hloop : deduct_amount_loop now saveOk a1 amtIn with
          | cancelled => simpa [deduct, hf, hau, hloop] using hn1
          | noInput => simpa [deduct, hf, hau, hloop] using hn1
          | success a2 =>
            obtain ⟨q, hq, hqle, ha2⟩ := deduct_loop_success hloop
            have ha2n : (0:ℚ) ≤ a2.balance := by
              rw [ha2]
              simp only []
              linarith
            simpa [deduct, hf, hau, hloop] using setAccount_nonneg hn1 ha2n
          | saveFailed a2 =>
            have ha2 := deduct_loop_saveFailed hloop
            have ha2n : (0:ℚ) ≤ a2.balance := by
              rw [ha2]
              exact ha1
            simpa [deduct, hf, hau, hloop] using setAccount_nonneg hn1 ha2n
        | cancelled => simpa [deduct, hf, hau] using hn1
        | tooMany => simpa [deduct, hf, hau] using hn1
        | failed => simpa [deduct, hf, hau] using hn1
        | noInput => simpa [deduct, hf, hau] using hn1
        | expiredFail => simpa [deduct, hf, hau] using hn1

theorem c1_balance_nonneg_invariant_witness :
    storeNonneg (register_phone id 0 true sampleStore "13900005678" [.num 50]
      [.num 30] [PwInput.back] [] []).2 ∧
    storeNonneg (recharge id 0 true sampleStore "1234" [.entry "1111"]
      [.num 5]).2.1 ∧
    storeNonneg (deduct id 0 true sampleStore "1234" [.entry "1111"]
      [.num 5]).2.1 :=
  ⟨(c1_balance_nonneg_invariant id 0 true sampleStore
      (by unfold storeNonneg; decide)).1 "13900005678" [.num 50] [.num 30]
      [PwInput.back] [] [],
   (c1_balance_nonneg_invariant id 0 true sampleStore
      (by unfold storeNonneg; decide)).2.1 "1234" [.entry "1111"] [.num 5],
   (c1_balance_nonneg_invariant id 0 true sampleStore
      (by unfold storeNonneg; decide)).2.2 "1234" [.entry "1111"] [.num 5]⟩
